import Mathlib

/-!
# USB layer of the DisplayLink driver (`sw/libdlo/dlo_usb.c`)

A shallow embedding of the descriptor parser, the serial-string decoder, the
device identifier, the EDID reader and the bulk command writer, followed by
the properties established about them.

Conventions of the embedding:

* memory is a function `Nat → Nat` listed from the base pointer the C function
  receives; a `uint8_t` read is `rd`, which reduces modulo 256;
* `uint16_t` arithmetic is reduced modulo `2 ^ 16`, `size_t` arithmetic modulo
  `2 ^ 32` (the target is a 32-bit microcontroller);
* a loop whose termination depends on its input takes a `fuel` argument and
  answers `none` (`run.no_fuel` where a null pointer is possible too) when the
  fuel runs out;
* calls into the USB host stack (TinyUSB) and into the rest of libdlo are
  answered by oracles passed as arguments, and every call that matters to a
  property is recorded in the result.
-/

namespace Picogus

/-! ## Memory -/

/-- Read of one `uint8_t` at offset `p`. -/
def rd (mem : Nat → Nat) (p : Nat) : Nat := mem p % 256

/-- Read of one little-endian `uint16_t` whose first byte is at offset `p`. -/
def rd16 (mem : Nat → Nat) (p : Nat) : Nat := rd mem p + 256 * rd mem (p + 1)

/-- Store of one `uint8_t` at offset `p`. -/
def wr (mem : Nat → Nat) (p v : Nat) : Nat → Nat :=
  fun i => if i = p then v % 256 else mem i

/-- The memory that holds the bytes of `l` from offset 0 and zero after them. -/
def mem_of_list (l : List Nat) : Nat → Nat := fun i => l.getD i 0

/-- The first `n` bytes of a memory, from offset `p`. -/
def bytes_at (mem : Nat → Nat) (p n : Nat) : List Nat :=
  (List.range n).map (fun i => rd mem (p + i))

/-- The memory holds the bytes of `l` from offset `p` on. -/
def holds (mem : Nat → Nat) (p : Nat) (l : List Nat) : Prop :=
  ∀ i, i < l.length → rd mem (p + i) = l.getD i 0

/-! ## TinyUSB constants and descriptor accessors

These come from the USB host stack (`tusb.h`), which the driver includes. -/

def TUSB_DESC_INTERFACE : Nat := 0x04
def TUSB_DESC_ENDPOINT : Nat := 0x05
def TUSB_DESC_INTERFACE_ASSOCIATION : Nat := 0x0B
def TUSB_CLASS_VENDOR_SPECIFIC : Nat := 0xFF
def TUSB_DIR_OUT : Nat := 0
def TUSB_DIR_IN : Nat := 1
def TUSB_DIR_IN_MASK : Nat := 0x80
def XFER_RESULT_SUCCESS : Nat := 0
/-- Transfer type `TUSB_XFER_BULK` in `bmAttributes`. -/
def TUSB_XFER_BULK : Nat := 2

/-- Size of `tusb_desc_interface_t`. -/
def sizeof_tusb_desc_interface_t : Nat := 9
/-- Size of `tusb_hid_descriptor_hid_t`. -/
def sizeof_tusb_hid_descriptor_hid_t : Nat := 9
/-- Size of `tusb_desc_endpoint_t`. -/
def sizeof_tusb_desc_endpoint_t : Nat := 7

/-- The `bLength` byte of the descriptor at `p`. -/
def tu_desc_len (mem : Nat → Nat) (p : Nat) : Nat := rd mem p
/-- The `bDescriptorType` byte of the descriptor at `p`. -/
def tu_desc_type (mem : Nat → Nat) (p : Nat) : Nat := rd mem (p + 1)
/-- The descriptor after the one at `p`: `p + bLength`. -/
def tu_desc_next (mem : Nat → Nat) (p : Nat) : Nat := p + rd mem p
/-- Direction of an endpoint address: bit 7 set means IN. -/
def tu_edpt_dir (addr : Nat) : Nat :=
  if addr &&& TUSB_DIR_IN_MASK ≠ 0 then TUSB_DIR_IN else TUSB_DIR_OUT

/-- `wTotalLength` of the configuration descriptor at offset 0. -/
def wTotalLength (mem : Nat → Nat) : Nat := rd16 mem 2
/-- `bInterfaceCount` of the interface association descriptor at `p`. -/
def bInterfaceCount (mem : Nat → Nat) (p : Nat) : Nat := rd mem (p + 3)
/-- `bAlternateSetting` of the interface descriptor at `p`. -/
def bAlternateSetting (mem : Nat → Nat) (p : Nat) : Nat := rd mem (p + 3)
/-- `bNumEndpoints` of the interface descriptor at `p`. -/
def bNumEndpoints (mem : Nat → Nat) (p : Nat) : Nat := rd mem (p + 4)
/-- `bInterfaceClass` of the interface descriptor at `p`. -/
def bInterfaceClass (mem : Nat → Nat) (p : Nat) : Nat := rd mem (p + 5)
/-- `bEndpointAddress` of the endpoint descriptor at `p`. -/
def bEndpointAddress (mem : Nat → Nat) (p : Nat) : Nat := rd mem (p + 2)
/-- `bmAttributes` of the endpoint descriptor at `p`. -/
def bmAttributes (mem : Nat → Nat) (p : Nat) : Nat := rd mem (p + 3)

/-! ## Descriptor parser -/

/-- What a C function declared to return `uint8_t` hands back: a value, or
nothing when it leaves through a bare `return;` or runs off its closing brace
(the caller then reads an indeterminate value). -/
inductive ret_u8 where
  | value (v : Nat)
  | no_value
deriving DecidableEq

/-- How the inner `while (len < max_len)` loop of `count_interface_total_len`
ends: with `return len` on an interface association, or by leaving the loop
(condition false, or `break` on an alternate-setting-0 interface). -/
inductive inner_exit where
  | returned (len : Nat)
  | left (p_desc len : Nat)
deriving DecidableEq

/-- The inner loop of `count_interface_total_len`, from the state
`(p_desc, len)`. -/
def count_inner (mem : Nat → Nat) (max_len : Nat) : Nat → Nat → Nat → Option inner_exit
  | 0, _, _ => none
  | fuel + 1, p_desc, len =>
    if len < max_len then
      if tu_desc_type mem p_desc = TUSB_DESC_INTERFACE_ASSOCIATION then
        some (inner_exit.returned len)
      else if tu_desc_type mem p_desc = TUSB_DESC_INTERFACE ∧ bAlternateSetting mem p_desc = 0 then
        some (inner_exit.left p_desc len)
      else
        count_inner mem max_len fuel (tu_desc_next mem p_desc) ((len + tu_desc_len mem p_desc) % 65536)
    else
      some (inner_exit.left p_desc len)

/-- The outer `while (itf_count--)` loop of `count_interface_total_len`; every
round adds `tu_desc_len(desc_itf)`, the length of the first interface. -/
def count_outer (mem : Nat → Nat) (desc_itf max_len fuel : Nat) : Nat → Nat → Nat → Option Nat
  | 0, _, len => some len
  | itf_count + 1, p_desc, len =>
    match count_inner mem max_len fuel (tu_desc_next mem p_desc)
        ((len + tu_desc_len mem desc_itf) % 65536) with
    | none => none
    | some (inner_exit.returned l) => some l
    | some (inner_exit.left p l) => count_outer mem desc_itf max_len fuel itf_count p l

/-- `count_interface_total_len(desc_itf, itf_count, max_len)`; `none` when an
inner loop does not end within `fuel` rounds. -/
def count_interface_total_len (mem : Nat → Nat) (fuel desc_itf itf_count max_len : Nat) :
    Option Nat :=
  count_outer mem desc_itf max_len fuel itf_count desc_itf 0

/-- Result of the endpoint search: the returned byte and the endpoint
descriptors (by offset) handed to `tuh_edpt_open`. -/
structure ep_result where
  ret : ret_u8
  edpt_open_calls : List Nat
deriving DecidableEq

/-- The `for` loop of `open_bulk_endpoint`; `n` is the number of rounds left
and `p_desc` the current endpoint descriptor. -/
def open_bulk_loop (mem : Nat → Nat) (edpt_open : Nat → Nat → Bool) (daddr : Nat) :
    Nat → Nat → ep_result
  | 0, _ => ⟨ret_u8.no_value, []⟩
  | n + 1, p_desc =>
    if TUSB_DESC_ENDPOINT ≠ tu_desc_type mem p_desc then ⟨ret_u8.no_value, []⟩
    else if tu_edpt_dir (bEndpointAddress mem p_desc) = TUSB_DIR_OUT then
      if ¬ edpt_open daddr p_desc = true then ⟨ret_u8.no_value, [p_desc]⟩
      else ⟨ret_u8.value (bEndpointAddress mem p_desc), [p_desc]⟩
    else open_bulk_loop mem edpt_open daddr n (tu_desc_next mem p_desc)

/-- `open_bulk_endpoint(daddr, desc_itf, max_len)`. -/
def open_bulk_endpoint (mem : Nat → Nat) (edpt_open : Nat → Nat → Bool)
    (daddr desc_itf max_len : Nat) : ep_result :=
  let drv_len := (sizeof_tusb_desc_interface_t + sizeof_tusb_hid_descriptor_hid_t +
    bNumEndpoints mem desc_itf * sizeof_tusb_desc_endpoint_t) % 65536
  if max_len < drv_len then ⟨ret_u8.no_value, []⟩
  else
    open_bulk_loop mem edpt_open daddr (bNumEndpoints mem desc_itf)
      (tu_desc_next mem (tu_desc_next mem desc_itf))

/-- The `while (p_desc < desc_end)` loop of `parse_config_descriptor`;
`cfuel` is the fuel handed to `count_interface_total_len`. -/
def parse_loop (mem : Nat → Nat) (edpt_open : Nat → Nat → Bool) (dev_addr desc_end cfuel : Nat) :
    Nat → Nat → Option ep_result
  | 0, _ => none
  | fuel + 1, p_desc =>
    if p_desc < desc_end then
      let assoc_itf_count :=
        if TUSB_DESC_INTERFACE_ASSOCIATION = tu_desc_type mem p_desc then bInterfaceCount mem p_desc
        else 1
      let p_itf :=
        if TUSB_DESC_INTERFACE_ASSOCIATION = tu_desc_type mem p_desc then tu_desc_next mem p_desc
        else p_desc
      if TUSB_DESC_INTERFACE ≠ tu_desc_type mem p_itf then some ⟨ret_u8.no_value, []⟩
      else
        match count_interface_total_len mem cfuel p_itf assoc_itf_count
            (Int.toNat (((desc_end : Int) - (p_itf : Int)) % 65536)) with
        | none => none
        | some drv_len =>
          if drv_len < sizeof_tusb_desc_interface_t then some ⟨ret_u8.no_value, []⟩
          else if bInterfaceClass mem p_itf = TUSB_CLASS_VENDOR_SPECIFIC then
            some (open_bulk_endpoint mem edpt_open dev_addr p_itf drv_len)
          else parse_loop mem edpt_open dev_addr desc_end cfuel fuel (p_itf + drv_len)
    else some ⟨ret_u8.value 0, []⟩

/-- `parse_config_descriptor(dev_addr, desc_cfg)` with the configuration
descriptor at offset 0 of `mem`; `none` when a loop does not end within
`fuel` rounds. -/
def parse_config_descriptor (mem : Nat → Nat) (edpt_open : Nat → Nat → Bool)
    (fuel dev_addr : Nat) : Option ep_result :=
  parse_loop mem edpt_open dev_addr (wTotalLength mem) fuel fuel (tu_desc_next mem 0)

/-! ## Serial-string decoder -/

/-- Width of `size_t` on the target: arithmetic on it is modulo `2 ^ 32`. -/
def SIZE_T_MOD : Nat := 2 ^ 32

/-- The `for` loop of `_convert_utf16le_to_utf8` on one memory: `utf16` is the
byte offset of the source array, `i` the index of the next code unit, `utf8`
the byte offset of the output cursor and `n` the number of rounds left. Source
and destination may lie in the same buffer. -/
def convert_loop (utf16 : Nat) : Nat → Nat → Nat → (Nat → Nat) → (Nat → Nat)
  | 0, _, _, mem => mem
  | n + 1, i, utf8, mem =>
    let chr := rd16 mem (utf16 + 2 * i)
    if chr < 0x80 then
      convert_loop utf16 n (i + 1) (utf8 + 1) (wr mem utf8 (chr &&& 0xff))
    else if chr < 0x800 then
      convert_loop utf16 n (i + 1) (utf8 + 2)
        (wr (wr mem utf8 (0xC0 ||| ((chr >>> 6) &&& 0x1F))) (utf8 + 1)
          (0x80 ||| ((chr >>> 0) &&& 0x3F)))
    else
      convert_loop utf16 n (i + 1) (utf8 + 3)
        (wr (wr (wr mem utf8 (0xE0 ||| ((chr >>> 12) &&& 0x0F))) (utf8 + 1)
          (0x80 ||| ((chr >>> 6) &&& 0x3F))) (utf8 + 2) (0x80 ||| ((chr >>> 0) &&& 0x3F)))

/-- `_convert_utf16le_to_utf8(utf16, utf16_len, utf8, utf8_len)`; `utf8_len`
is unused, as in the source. -/
def _convert_utf16le_to_utf8 (mem : Nat → Nat) (utf16 utf16_len utf8 : Nat) : Nat → Nat :=
  convert_loop utf16 utf16_len 0 utf8 mem

/-- The output cursor `utf8` of `_convert_utf16le_to_utf8` when its `for` loop
ends, with the arguments of `convert_loop`. Every store of the loop is
`*utf8++ = ...`, so the cursor is the start of the output plus the number of
bytes stored. -/
def convert_cursor (utf16 : Nat) : Nat → Nat → Nat → (Nat → Nat) → Nat
  | 0, _, utf8, _ => utf8
  | n + 1, i, utf8, mem =>
    let chr := rd16 mem (utf16 + 2 * i)
    if chr < 0x80 then
      convert_cursor utf16 n (i + 1) (utf8 + 1) (wr mem utf8 (chr &&& 0xff))
    else if chr < 0x800 then
      convert_cursor utf16 n (i + 1) (utf8 + 2)
        (wr (wr mem utf8 (0xC0 ||| ((chr >>> 6) &&& 0x1F))) (utf8 + 1)
          (0x80 ||| ((chr >>> 0) &&& 0x3F)))
    else
      convert_cursor utf16 n (i + 1) (utf8 + 3)
        (wr (wr (wr mem utf8 (0xE0 ||| ((chr >>> 12) &&& 0x0F))) (utf8 + 1)
          (0x80 ||| ((chr >>> 6) &&& 0x3F))) (utf8 + 2) (0x80 ||| ((chr >>> 0) &&& 0x3F)))

/-- The `for` loop of `_count_utf8_bytes`, with the `size_t` accumulator. -/
def count_loop (mem : Nat → Nat) (buf : Nat) : Nat → Nat → Nat → Nat
  | 0, _, total_bytes => total_bytes
  | n + 1, i, total_bytes =>
    let chr := rd16 mem (buf + 2 * i)
    if chr < 0x80 then count_loop mem buf n (i + 1) ((total_bytes + 1) % SIZE_T_MOD)
    else if chr < 0x800 then count_loop mem buf n (i + 1) ((total_bytes + 2) % SIZE_T_MOD)
    else count_loop mem buf n (i + 1) ((total_bytes + 3) % SIZE_T_MOD)

/-- `_count_utf8_bytes(buf, len)` as the caller sees it: the function casts
the `size_t` total to `int` and the caller casts it back to `size_t`, which
leaves the total modulo `2 ^ 32`. -/
def _count_utf8_bytes (mem : Nat → Nat) (buf len : Nat) : Nat :=
  count_loop mem buf len 0 0

/-- `tuh_descriptor_get_serial_string_sync_utf8(daddr, buf, buf_len)`. The
argument is what `tuh_descriptor_get_serial_string_sync(daddr, 0x409, buf,
buf_len)` answered: its result code and the memory, listed from `buf`, after
the call. The count reads the code units from `(uint16_t*)(buf + 2)`, byte
offset 2; the conversion reads them from `(uint16_t *) buf + 2`, byte
offset 4. -/
def tuh_descriptor_get_serial_string_sync_utf8 (fetched : Nat × (Nat → Nat)) :
    Nat × (Nat → Nat) :=
  let err := fetched.1
  let buf := fetched.2
  if err = XFER_RESULT_SUCCESS then
    if (rd buf 0 &&& 0xff) ≠ 0 then
      let utf16_len := (((rd buf 0 &&& 0xff) + SIZE_T_MOD - 2) % SIZE_T_MOD) / 2
      let utf8_len := _count_utf8_bytes buf 2 utf16_len
      let buf1 := _convert_utf16le_to_utf8 buf 4 utf16_len 0
      (err, wr buf1 utf8_len 0)
    else (err, buf)
  else (err, buf)

/-- The C string that starts at offset 0 of `mem`, looked for within the 255
bytes of the static `string` array of `dlo_check_device`. -/
def c_string (mem : Nat → Nat) : List Nat :=
  (bytes_at mem 0 255).takeWhile (fun b => b ≠ 0)

/-! ## Device records -/

/-- Modelled from the spec: the `dlo_retcode_t` enumeration is declared in a
libdlo header that is not among the sources. `dlo_ok` is zero ("Return code,
zero for no error"); the named errors are the kinds the driver returns
(`AllocationFailure`, `I2cOperationError`, `NotClaimed`, `UnsupportedDevice`);
`other n` is any other non-zero number that reaches an `err` variable. -/
inductive dlo_retcode_t where
  | dlo_ok
  | dlo_err_memory
  | dlo_err_iic_op
  | dlo_err_unclaimed
  | dlo_err_unsupported
  | other (n : Nat)
deriving DecidableEq

/-- The assignment `err = (cmd)` of a `bool` or `uint8_t` to a
`dlo_retcode_t` variable: zero is `dlo_ok`. -/
def retcode_of_nat (n : Nat) : dlo_retcode_t :=
  if n = 0 then dlo_retcode_t.dlo_ok else dlo_retcode_t.other n

/-- Modelled from the spec: the device families of `dlo_devtype_t` ("classifies
device family ... an unrecognized combination yields an explicit unknown
variant"); the enumeration is declared in a header that is not among the
sources, so its numeric codes are a parameter of `dlo_check_device`. -/
inductive dlo_devtype_t where
  | dlo_dev_unknown
  | dlo_dev_base
  | dlo_dev_alex
  | dlo_dev_ollie
deriving DecidableEq

/-- The Connection `dlo_usb_dev_t`: bus address `udev` and, in `uhand`, the
endpoint address (`dlo_usb_open`: "Use dev->cnct->uhand for the endpoint
address"). -/
structure dlo_usb_dev_t where
  udev : Nat
  uhand : ret_u8
deriving DecidableEq

/-- Modelled from the spec: the Device Record `dlo_device_t` is declared in a
header that is not among the sources; these are the fields the driver uses
("device-type classification, decoded serial string (unique key),
claimed/open flag, staging buffer (owned), write timeout, and an attached
Connection"). Pointers into the staging buffer are addresses, 0 for `NULL`;
`cnct` is `none` for a null Connection pointer. -/
structure dlo_device_t where
  type : dlo_devtype_t
  serial : List Nat
  claimed : Bool
  buffer : Nat
  bufptr : Nat
  bufend : Nat
  timeout : Nat
  cnct : Option dlo_usb_dev_t
deriving DecidableEq

/-- How a call that dereferences `dev->cnct` or runs a data-dependent loop
ends: it returns, it dereferences a null Connection pointer, or its loop is
still running when the fuel is used up. -/
inductive run (α : Type) where
  | done (a : α)
  | null_deref
  | no_fuel
deriving DecidableEq

/-! ## Control requests -/

def TUSB_REQ_RCPT_DEVICE : Nat := 0
def TUSB_REQ_TYPE_VENDOR : Nat := 2

def NR_USB_REQUEST_STATUS_DW : Nat := 0x06
def NR_USB_REQUEST_CHANNEL : Nat := 0x12
def NR_USB_REQUEST_I2C_SUB_IO : Nat := 0x02

def VENDORID_DISPLAYLINK : Nat := 0x17E9

/-- A control transfer handed to `tuh_control_xfer`: the bus address of the
`tuh_xfer_t` and the fields of its `tusb_control_request_t`. -/
structure control_request where
  daddr : Nat
  recipient : Nat
  type : Nat
  direction : Nat
  bRequest : Nat
  wValue : Nat
  wIndex : Nat
  wLength : Nat
deriving DecidableEq

/-! ## Device identifier -/

/-- Modelled from the spec: `dlo_device_lookup` belongs to the device registry,
which is not among the sources ("looks up an existing record by serial"). The
registry is the list of records and the lookup finds the first record with
the given serial string. -/
def dlo_device_lookup (registry : List dlo_device_t) (serial : List Nat) : Option dlo_device_t :=
  registry.find? (fun d => decide (d.serial = serial))

/-- Modelled from the spec: `dlo_new_device` belongs to the device registry,
which is not among the sources ("else allocates a new record"). The new record
carries the type and the serial string, is unclaimed, has no staging buffer,
no timeout and no Connection yet, and is put in front of the list. -/
def dlo_new_device (registry : List dlo_device_t) (type : dlo_devtype_t) (serial : List Nat) :
    dlo_device_t × List dlo_device_t :=
  let dev : dlo_device_t := ⟨type, serial, false, 0, 0, 0, 0, none⟩
  (dev, dev :: registry)

/-- Store through the pointer `dlo_device_lookup` returned: rewrites the first
record with the given serial string. -/
def registry_store (f : dlo_device_t → dlo_device_t) (serial : List Nat) :
    List dlo_device_t → List dlo_device_t
  | [] => []
  | d :: ds => if d.serial = serial then f d :: ds else d :: registry_store f serial ds

/-- A call `dlo_check_device` makes into the USB host stack after it has read
the vendor and product identifiers. -/
inductive check_call where
  | control_xfer (r : control_request)
  | get_serial_string (daddr langid buf_len : Nat)
deriving DecidableEq

/-- What the collaborators answer during one call of `dlo_check_device`. -/
structure check_env where
  /-- Vendor identifier reported by `tuh_vid_pid_get`. -/
  VID : Nat
  /-- Result of `tuh_control_xfer` for the type query: `true` on success. -/
  control_ok : Bool
  /-- Value of `buf[3]` after the type query. -/
  buf3 : Nat
  /-- Result code of `tuh_descriptor_get_serial_string_sync` and the contents
  of the static `string` array after it. -/
  fetched : Nat × (Nat → Nat)
  /-- Whether `dlo_new_device` gets its memory. -/
  new_device_ok : Bool
  /-- Whether `dlo_malloc(sizeof(dlo_usb_dev_t))` gets its memory. -/
  cnct_alloc_ok : Bool

/-- Result of `dlo_check_device`: return code, registry afterwards and the
calls made into the USB host stack. -/
structure check_result where
  err : dlo_retcode_t
  registry : List dlo_device_t
  calls : List check_call
deriving DecidableEq

/-- The `switch` of `dlo_check_device` on `(buf[3] >> 4) & 0xF`; `code` gives
the numeric value of each `dlo_devtype_t` enumerator. -/
def classify (code : dlo_devtype_t → Nat) (buf3 : Nat) : dlo_devtype_t :=
  if ((buf3 >>> 4) &&& 0xF) = code dlo_devtype_t.dlo_dev_base then dlo_devtype_t.dlo_dev_base
  else if ((buf3 >>> 4) &&& 0xF) = code dlo_devtype_t.dlo_dev_alex then dlo_devtype_t.dlo_dev_alex
  else if buf3 = code dlo_devtype_t.dlo_dev_ollie then dlo_devtype_t.dlo_dev_ollie
  else dlo_devtype_t.dlo_dev_unknown

/-- Modelled from the spec: the macro `UERR` is defined in a header that is not
among the sources; `UERR(dlo_err_unsupported)` makes the function return that
code ("fails with `UnsupportedDevice` if the vendor identifier does not match
the expected constant"). -/
def UERR (code : dlo_retcode_t) : dlo_retcode_t := code

/-- The type query `dlo_check_device` sends: vendor, device, IN, request
`NR_USB_REQUEST_STATUS_DW`, `wLength = sizeof(buf)` with `uint8_t buf[4]`. -/
def type_query (daddr : Nat) : control_request :=
  ⟨daddr, TUSB_REQ_RCPT_DEVICE, TUSB_REQ_TYPE_VENDOR, TUSB_DIR_IN, NR_USB_REQUEST_STATUS_DW, 0, 0, 4⟩

/-- `dlo_check_device(daddr)` on the registry `registry`. `TBERR_GOTO` jumps
to `error` when `tuh_control_xfer` answers `false`, with `err` holding that
`false`; `TXERR_GOTO` jumps when the result differs from
`XFER_RESULT_SUCCESS`; `NERR_GOTO` (a macro of the missing header, modelled
from the spec's `AllocationFailure`) jumps with `dlo_err_memory` on a null
pointer. At `error` the Connection of `dev` is freed and set to `NULL` when
`dev` is set. -/
def dlo_check_device (code : dlo_devtype_t → Nat) (env : check_env)
    (registry : List dlo_device_t) (daddr : Nat) : run check_result :=
  if env.VID ≠ VENDORID_DISPLAYLINK then
    run.done ⟨UERR dlo_retcode_t.dlo_err_unsupported, registry, []⟩
  else
    let c1 := check_call.control_xfer (type_query daddr)
    if ¬ env.control_ok = true then
      -- TBERR_GOTO: err = false, dev == NULL
      run.done ⟨retcode_of_nat 0, registry, [c1]⟩
    else
      let type := classify code (env.buf3 % 256)
      let c2 := check_call.get_serial_string daddr 0x409 255
      let got := tuh_descriptor_get_serial_string_sync_utf8 env.fetched
      if got.1 ≠ XFER_RESULT_SUCCESS then
        -- TXERR_GOTO: err = the transfer result, dev == NULL
        run.done ⟨retcode_of_nat got.1, registry, [c1, c2]⟩
      else
        let string := c_string got.2
        match dlo_device_lookup registry string with
        | some dev =>
          match dev.cnct with
          | none => run.null_deref
          | some cnct =>
            run.done ⟨dlo_retcode_t.dlo_ok,
              registry_store (fun d => { d with cnct := some { cnct with udev := daddr } }) string
                registry, [c1, c2]⟩
        | none =>
          if ¬ env.new_device_ok = true then
            run.done ⟨dlo_retcode_t.dlo_err_memory, registry, [c1, c2]⟩
          else
            let created := dlo_new_device registry type string
            if ¬ env.cnct_alloc_ok = true then
              -- error: dev->cnct is NULL already and stays NULL
              run.done ⟨dlo_retcode_t.dlo_err_memory, created.2, [c1, c2]⟩
            else
              run.done ⟨dlo_retcode_t.dlo_ok,
                { created.1 with cnct := some ⟨daddr, ret_u8.value 0⟩ } :: registry, [c1, c2]⟩

/-! ## EDID reader -/

/-- Modelled from the spec: `EDID_STRUCT_SZ` is defined in a header that is not
among the sources ("EDID block size 128 bytes"). -/
def EDID_STRUCT_SZ : Nat := 128

/-- The request of round `i` of `read_edid`: vendor, device, IN, request
`NR_USB_REQUEST_I2C_SUB_IO`, `wValue = i << 8`, `wIndex = 0xA1`,
`wLength = sizeof(buf)` with `uint8_t buf[2]`. -/
def edid_request (daddr i : Nat) : control_request :=
  ⟨daddr, TUSB_REQ_RCPT_DEVICE, TUSB_REQ_TYPE_VENDOR, TUSB_DIR_IN, NR_USB_REQUEST_I2C_SUB_IO,
    (i <<< 8) % 65536, 0xA1, 2⟩

/-- Result of `read_edid`: return code, the control requests issued in order,
and the blocks handed to `dlo_mode_parse_edid`, in order. -/
structure edid_result where
  err : dlo_retcode_t
  requests : List control_request
  parse_calls : List (List Nat)
deriving DecidableEq

/-- The `for (i = 0; i < EDID_STRUCT_SZ; i++)` loop of `read_edid`. `resp i`
is the pair `(buf[0], buf[1])` found in the response buffer once request `i`
has returned; `n` is the number of rounds left, `edid` the bytes stored so
far and `reqs` the requests issued so far. `ERR_GOTO` (a macro of the missing
header, modelled on the `TXERR_GOTO` of the source) stores the code in `err`
and jumps to `error` when it is not `dlo_ok`. -/
def read_edid_loop (resp : Nat → Nat × Nat) (parse_edid : List Nat → dlo_retcode_t) (daddr : Nat) :
    Nat → Nat → List Nat → List control_request → edid_result
  | 0, _, edid, reqs => ⟨parse_edid edid, reqs, [edid]⟩
  | n + 1, i, edid, reqs =>
    let buf := resp i
    if buf.1 % 256 ≠ 0 then ⟨dlo_retcode_t.dlo_err_iic_op, reqs ++ [edid_request daddr i], []⟩
    else read_edid_loop resp parse_edid daddr n (i + 1) (edid ++ [buf.2 % 256])
      (reqs ++ [edid_request daddr i])

/-- `read_edid(dev, uhand)`. `malloc_ok` tells whether
`dlo_malloc(EDID_STRUCT_SZ)` gets its memory; `NERR` (a macro of the missing
header, modelled from the spec's `AllocationFailure`) returns
`dlo_err_memory` on a null pointer. -/
def read_edid (malloc_ok : Bool) (resp : Nat → Nat × Nat) (parse_edid : List Nat → dlo_retcode_t)
    (dev : dlo_device_t) : run edid_result :=
  if ¬ malloc_ok = true then run.done ⟨dlo_retcode_t.dlo_err_memory, [], []⟩
  else
    match dev.cnct with
    | none => run.null_deref
    | some cnct => run.done (read_edid_loop resp parse_edid cnct.udev EDID_STRUCT_SZ 0 [] [])

/-! ## Bulk command writer -/

/-- A bulk transfer handed to `tuh_edpt_xfer`: the fields `daddr`, `ep_addr`,
`buflen` and `buffer` of the `tuh_xfer_t`. -/
structure tuh_xfer_t where
  daddr : Nat
  ep_addr : ret_u8
  buflen : Nat
  buffer : Nat
deriving DecidableEq

/-- What the transfer engine answers during one `dlo_usb_write_buf`, per
submitted transfer (counted from 0). -/
structure bulk_engine where
  /-- What `tuh_edpt_xfer` returns for transfer `j`: `true` when accepted. -/
  edpt_xfer : Nat → Bool
  /-- How many times `usbh_edpt_busy` answers `true` after transfer `j` was
  submitted, before it answers `false`. -/
  busy_polls : Nat → Nat

/-- The wait `while (usbh_edpt_busy(..)) tuh_task();` when the endpoint stays
busy for `k` polls: the number of `tuh_task` calls. -/
def busy_wait : Nat → Nat
  | 0 => 0
  | k + 1 => busy_wait k + 1

/-- Result of `dlo_usb_write_buf`: return code, transfers submitted in order,
and number of `tuh_task` calls. -/
structure write_result where
  err : dlo_retcode_t
  xfers : List tuh_xfer_t
  tasks : Nat
deriving DecidableEq

/-- The `while (size)` loop of `dlo_usb_write_buf`; `j` counts the transfers
submitted so far. The result of `tuh_edpt_xfer` is not looked at. -/
def write_loop (eng : bulk_engine) (BUF_SIZE : Nat) (cnct : dlo_usb_dev_t) :
    Nat → Nat → Nat → Nat → Option (List tuh_xfer_t × Nat)
  | 0, _, _, size => if size ≠ 0 then none else some ([], 0)
  | fuel + 1, j, buf, size =>
    if size ≠ 0 then
      let num := if size > BUF_SIZE then BUF_SIZE else size
      let xfer : tuh_xfer_t := ⟨cnct.udev, cnct.uhand, num, buf⟩
      let tasks := busy_wait (eng.busy_polls j)
      match write_loop eng BUF_SIZE cnct fuel (j + 1) (buf + num) (size - num) with
      | none => none
      | some (xs, t) => some (xfer :: xs, tasks + t)
    else some ([], 0)

/-- `dlo_usb_write_buf(dev, buf, size)` with `WRITE_BUF_BODGE` and
`DEBUG_DUMP` undefined. `BUF_SIZE` is defined in a header that is not among
the sources and is a parameter. -/
def dlo_usb_write_buf (eng : bulk_engine) (BUF_SIZE fuel : Nat) (dev : dlo_device_t)
    (buf size : Nat) : run write_result :=
  if ¬ dev.claimed = true then run.done ⟨dlo_retcode_t.dlo_err_unclaimed, [], 0⟩
  else if size = 0 then run.done ⟨dlo_retcode_t.dlo_ok, [], 0⟩
  else
    match dev.cnct with
    | none => run.null_deref
    | some cnct =>
      match write_loop eng BUF_SIZE cnct fuel 0 buf size with
      | none => run.no_fuel
      | some (xs, t) => run.done ⟨dlo_retcode_t.dlo_ok, xs, t⟩

/-- `dlo_usb_write(dev)`: the record afterwards and the result of the write.
The size handed down is `dev->bufptr - dev->buffer` converted to `size_t`. -/
def dlo_usb_write (eng : bulk_engine) (BUF_SIZE fuel : Nat) (dev : dlo_device_t) :
    run (dlo_device_t × write_result) :=
  match dlo_usb_write_buf eng BUF_SIZE fuel dev dev.buffer
      (Int.toNat (((dev.bufptr : Int) - (dev.buffer : Int)) % (SIZE_T_MOD : Int))) with
  | run.done r => run.done ({ dev with bufptr := dev.buffer }, r)
  | run.null_deref => run.null_deref
  | run.no_fuel => run.no_fuel

/-! ## Device session -/

/-- Default bulk write timeout `WRITE_TIMEOUT`, in milliseconds. -/
def WRITE_TIMEOUT : Nat := 10000

/-- What the collaborators answer during one call of `dlo_usb_open`. -/
structure open_env where
  /-- Result code of `tuh_descriptor_get_configuration_sync(daddr, 0, temp_buf,
  sizeof(temp_buf))` and the memory, listed from `temp_buf`, after the call. -/
  cfg : Nat × (Nat → Nat)
  /-- Answer of `tuh_edpt_open` per bus address and endpoint descriptor offset. -/
  edpt_open : Nat → Nat → Bool
  /-- Address returned by `dlo_malloc(BUF_SIZE)`, 0 for `NULL`. -/
  buffer_alloc : Nat
  /-- Whether the `dlo_malloc` of `read_edid` gets its memory. -/
  edid_malloc_ok : Bool
  /-- The response buffer `(buf[0], buf[1])` after each request of `read_edid`. -/
  edid_resp : Nat → Nat × Nat
  /-- Result of `dlo_mode_parse_edid` on a block. -/
  parse_edid : List Nat → dlo_retcode_t

/-- Result of `dlo_usb_open`: return code, the record afterwards, the endpoint
descriptors handed to `tuh_edpt_open`, and what `read_edid` did when it was
reached. -/
structure open_result where
  err : dlo_retcode_t
  dev : dlo_device_t
  edpt_open_calls : List Nat
  edid : Option edid_result
deriving DecidableEq

/-- `dlo_usb_open(dev)`. `NERR` (a macro of the missing header, modelled from
the spec's `AllocationFailure`) returns `dlo_err_memory` on a null pointer;
`BUF_SIZE` is a parameter. `use_default_modes` and `dlo_mode_parse_edid` work
on the mode table of the record, which is not a field of `dlo_device_t` here.
The result of `read_edid` is stored in `err` and not looked at. -/
def dlo_usb_open (env : open_env) (BUF_SIZE fuel : Nat) (dev : dlo_device_t) :
    run open_result :=
  match dev.cnct with
  | none => run.null_deref
  | some cnct =>
    let daddr := cnct.udev
    -- when the fetch fails, uhand keeps its value and no endpoint is looked for
    let parsed : Option ep_result :=
      if XFER_RESULT_SUCCESS = env.cfg.1 then
        parse_config_descriptor env.cfg.2 env.edpt_open fuel daddr
      else some ⟨cnct.uhand, []⟩
    match parsed with
    | none => run.no_fuel
    | some p =>
      -- dev->cnct->uhand = parse_config_descriptor(..); dev->claimed = true;
      let dev1 : dlo_device_t :=
        { dev with cnct := some { cnct with uhand := p.ret }, claimed := true }
      if dev1.buffer = 0 ∧ env.buffer_alloc = 0 then
        run.done ⟨dlo_retcode_t.dlo_err_memory, { dev1 with buffer := env.buffer_alloc },
          p.edpt_open_calls, none⟩
      else
        let dev2 : dlo_device_t :=
          if dev1.buffer = 0 then
            { dev1 with buffer := env.buffer_alloc, bufptr := env.buffer_alloc,
                        bufend := env.buffer_alloc + BUF_SIZE }
          else dev1
        let dev3 : dlo_device_t :=
          if dev2.timeout = 0 then { dev2 with timeout := WRITE_TIMEOUT } else dev2
        match read_edid env.edid_malloc_ok env.edid_resp env.parse_edid dev3 with
        | run.done e => run.done ⟨dlo_retcode_t.dlo_ok, dev3, p.edpt_open_calls, some e⟩
        | run.null_deref => run.null_deref
        | run.no_fuel => run.no_fuel

/-- Result of `dlo_usb_close`: return code, the record afterwards, and the
`(bus address, endpoint)` pairs handed to `usbh_edpt_release`. -/
structure close_result where
  err : dlo_retcode_t
  dev : dlo_device_t
  releases : List (Nat × ret_u8)
deriving DecidableEq

/-- `dlo_usb_close(dev)`. -/
def dlo_usb_close (dev : dlo_device_t) : run close_result :=
  if dev.claimed = true then
    let dev1 : dlo_device_t :=
      if dev.buffer ≠ 0 then { dev with buffer := 0, bufptr := 0, bufend := 0 } else dev
    let dev2 : dlo_device_t := { dev1 with claimed := false }
    match dev.cnct with
    | none => run.null_deref
    | some cnct => run.done ⟨dlo_retcode_t.dlo_ok, dev2, [(cnct.udev, cnct.uhand)]⟩
  else run.done ⟨dlo_retcode_t.dlo_ok, dev, []⟩

/-! ## Channel selector -/

/-- The characters of the string literal `STD_CHANNEL`; the literal ends with
a terminating zero byte after them. -/
def STD_CHANNEL : List Nat :=
  [0x57, 0xCD, 0xDC, 0xA7, 0x1C, 0x88, 0x5E, 0x15, 0x60, 0xFE, 0xC6, 0x97, 0x16, 0x3D, 0x47, 0xF2]

/-- `strlen` of a string literal with the given characters: the number of
bytes before the first zero byte of the characters followed by the
terminator. -/
def strlen (chars : List Nat) : Nat := ((chars ++ [0]).takeWhile (fun b => b ≠ 0)).length

/-- Modelled from the spec: the macro `DSIZEOF` is defined in a header that is
not among the sources; `DSIZEOF(STD_CHANNEL)` is the size of the literal
without its terminator ("fixed 16-byte opaque payload"). -/
def DSIZEOF (chars : List Nat) : Nat := (chars.length + 1) - 1

/-- Result of a channel selection: return code and the control transfers
issued, each with the buffer handed over as payload. -/
structure chan_result where
  err : dlo_retcode_t
  xfers : List (control_request × List Nat)
deriving DecidableEq

/-- `dlo_usb_chan_sel(dev, buf, size)`; `wLength` is a `uint16_t` field. The
result of `tuh_control_xfer` is not looked at. -/
def dlo_usb_chan_sel (dev : dlo_device_t) (buf : List Nat) (size : Nat) : run chan_result :=
  if size ≠ 0 then
    match dev.cnct with
    | none => run.null_deref
    | some cnct =>
      run.done ⟨dlo_retcode_t.dlo_ok,
        [(⟨cnct.udev, TUSB_REQ_RCPT_DEVICE, TUSB_REQ_TYPE_VENDOR, TUSB_DIR_OUT,
            NR_USB_REQUEST_CHANNEL, 0, 0, size % 65536⟩, buf)]⟩
  else run.done ⟨dlo_retcode_t.dlo_ok, []⟩

/-- `dlo_usb_std_chan(dev)`; the `ASSERT(strlen(STD_CHANNEL) == 16)` before
the call holds (`strlen STD_CHANNEL = 16`) and has no effect. -/
def dlo_usb_std_chan (dev : dlo_device_t) : run chan_result :=
  dlo_usb_chan_sel dev STD_CHANNEL (DSIZEOF STD_CHANNEL)

/-! ## Reference descriptions

What the properties below compare the code with: the chunking of a buffer, the
records of a serial string, and the layout of a well-formed configuration. -/

/-- The transfers the specification describes for a buffer of `n` bytes at
`buf`: chunk `j` starts at `buf + j * B` and carries `min B (n - j * B)` bytes. -/
def spec_chunks (cnct : dlo_usb_dev_t) (B buf n : Nat) : List tuh_xfer_t :=
  (List.range ((n + B - 1) / B)).map
    (fun j => (⟨cnct.udev, cnct.uhand, min B (n - j * B), buf + j * B⟩ : tuh_xfer_t))

/-- A descriptor that continues an interface: `bLength` is its length, at least
2, and it is neither an interface association nor an interface descriptor
with alternate setting 0. -/
def is_sub_descriptor (d : List Nat) : Prop :=
  2 ≤ d.length ∧ d.getD 0 0 = d.length ∧ d.getD 1 0 ≠ TUSB_DESC_INTERFACE_ASSOCIATION ∧
  (d.getD 1 0 = TUSB_DESC_INTERFACE → 4 ≤ d.length ∧ d.getD 3 0 ≠ 0)

instance (d : List Nat) : Decidable (is_sub_descriptor d) := by
  unfold is_sub_descriptor; infer_instance

/-- A 9-byte interface descriptor with alternate setting 0. -/
def is_itf_head (h : List Nat) : Prop :=
  h.length = 9 ∧ h.getD 0 0 = 9 ∧ h.getD 1 0 = TUSB_DESC_INTERFACE ∧ h.getD 3 0 = 0

instance (h : List Nat) : Decidable (is_itf_head h) := by
  unfold is_itf_head; infer_instance

/-- A 7-byte endpoint descriptor. -/
def is_endpoint (e : List Nat) : Prop :=
  e.length = 7 ∧ e.getD 0 0 = 7 ∧ e.getD 1 0 = TUSB_DESC_ENDPOINT

instance (e : List Nat) : Decidable (is_endpoint e) := by
  unfold is_endpoint; infer_instance

/-- An interface with the descriptors that belong to it. -/
structure itf_block where
  head : List Nat
  subs : List (List Nat)

/-- The bytes of an interface block: the interface descriptor, then its
sub-descriptors in order. -/
def itf_block.bytes (b : itf_block) : List Nat := b.head ++ b.subs.flatten

/-- An interface block of a class other than vendor-specific. -/
def is_other_block (b : itf_block) : Prop :=
  is_itf_head b.head ∧ b.head.getD 5 0 ≠ TUSB_CLASS_VENDOR_SPECIFIC ∧
  ∀ d ∈ b.subs, is_sub_descriptor d

instance (b : itf_block) : Decidable (is_other_block b) := by
  unfold is_other_block; infer_instance

/-- A 7-byte endpoint descriptor whose address has direction IN. -/
def is_in_endpoint (e : List Nat) : Prop :=
  is_endpoint e ∧ tu_edpt_dir (e.getD 2 0) = TUSB_DIR_IN

instance (e : List Nat) : Decidable (is_in_endpoint e) := by
  unfold is_in_endpoint; infer_instance

/-- A 7-byte bulk endpoint descriptor whose address has direction OUT. -/
def is_bulk_out_endpoint (e : List Nat) : Prop :=
  is_endpoint e ∧ tu_edpt_dir (e.getD 2 0) = TUSB_DIR_OUT ∧ e.getD 3 0 = TUSB_XFER_BULK

instance (e : List Nat) : Decidable (is_bulk_out_endpoint e) := by
  unfold is_bulk_out_endpoint; infer_instance

/-- The interface descriptor of a vendor-specific interface. -/
def is_vendor_head (h : List Nat) : Prop :=
  is_itf_head h ∧ h.getD 5 0 = TUSB_CLASS_VENDOR_SPECIFIC

instance (h : List Nat) : Decidable (is_vendor_head h) := by
  unfold is_vendor_head; infer_instance

/-- What follows the vendor interface: nothing, or bytes that start with an
interface association or an interface descriptor with alternate setting 0. -/
def is_boundary (post : List Nat) : Prop :=
  post = [] ∨ (4 ≤ post.length ∧
    (post.getD 1 0 = TUSB_DESC_INTERFACE_ASSOCIATION ∨
      (post.getD 1 0 = TUSB_DESC_INTERFACE ∧ post.getD 3 0 = 0)))

instance (post : List Nat) : Decidable (is_boundary post) := by
  unfold is_boundary; infer_instance

/-- The bytes of a configuration: the configuration descriptor, interface
blocks of other classes, then the vendor interface descriptor `vend`, one
class-specific descriptor `cls`, the endpoint descriptors `ins` and `out`, the
remaining descriptors `rest` of the vendor interface, and what follows. -/
def config_bytes (cfg_hdr : List Nat) (pre : List itf_block) (vend cls : List Nat)
    (ins : List (List Nat)) (out : List Nat) (rest : List (List Nat)) (post : List Nat) :
    List Nat :=
  cfg_hdr ++ (pre.map itf_block.bytes).flatten ++ vend ++ cls ++ ins.flatten ++ out
    ++ rest.flatten ++ post

/-- The records of a registry that carry the serial string `s`. -/
def records_with (registry : List dlo_device_t) (s : List Nat) : List dlo_device_t :=
  registry.filter (fun d => decide (d.serial = s))

/-! ## Sample data -/

/-- A Connection used in the examples: bus address 1, endpoint 1. -/
def cnct_example : dlo_usb_dev_t := ⟨1, ret_u8.value 1⟩

/-- A claimed record used in the examples, with four bytes staged. -/
def dev_example : dlo_device_t :=
  ⟨dlo_devtype_t.dlo_dev_alex, [0x42], true, 0x1000, 0x1004, 0x2000, 10000, some cnct_example⟩

/-- A transfer engine that accepts every transfer and is never busy. -/
def engine_idle : bulk_engine := ⟨fun _ => true, fun _ => 0⟩

/-- A transfer engine that reports failure for every transfer. -/
def engine_failing : bulk_engine := ⟨fun _ => false, fun _ => 1⟩

/-- Sample device answers: status 0 and data `i` for every read but read 64,
whose status byte is 1. -/
def resp_fail_64 : Nat → Nat × Nat := fun i => if i = 64 then (1, 0) else (0, i)

/-- Sample answers of the collaborators of `dlo_check_device` for a device of
another vendor. -/
def env_foreign : check_env :=
  ⟨0x046D, true, 0xB0, (0, mem_of_list [6, 3, 0x41, 0, 0x42, 0]), true, true⟩

/-- The string descriptor of the serial "AB": length byte 6, type byte 3, then
the code units `0x0041` and `0x0042`. -/
def serial_AB : List Nat := [6, 3, 0x41, 0, 0x42, 0]

/-- A configuration whose vendor interface is directly followed by its bulk-OUT
endpoint: configuration descriptor (`wTotalLength = 25`), interface descriptor
(class `0xFF`, one endpoint), endpoint descriptor (address `0x01`, bulk). -/
def cfg_direct : List Nat :=
  [9, 2, 25, 0, 1, 1, 0, 0x80, 50,
   9, 4, 0, 0, 1, 0xFF, 0, 0, 0,
   7, 5, 0x01, 2, 0, 2, 0]

/-- A configuration whose vendor interface has a class-specific descriptor, an
interrupt-OUT endpoint (address `0x02`) and then its only bulk-OUT endpoint
(address `0x01`); `wTotalLength = 41`. -/
def cfg_interrupt_first : List Nat :=
  [9, 2, 41, 0, 1, 1, 0, 0x80, 50,
   9, 4, 0, 0, 2, 0xFF, 0, 0, 0,
   9, 0x5F, 1, 0, 7, 0, 0, 0, 0,
   7, 5, 0x02, 3, 8, 0, 1,
   7, 5, 0x01, 2, 0, 2, 0]

/-- The configuration descriptor of the sample configuration: 66 bytes in all. -/
def sample_hdr : List Nat := [9, 2, 66, 0, 2, 1, 0, 0x80, 50]

/-- A HID interface with its HID descriptor and one interrupt-IN endpoint. -/
def sample_hid : itf_block :=
  ⟨[9, 4, 0, 0, 1, 3, 0, 0, 0], [[9, 0x21, 0x11, 1, 0, 1, 0x22, 63, 0], [7, 5, 0x81, 3, 8, 0, 10]]⟩

/-- The vendor interface of the sample configuration: two endpoints. -/
def sample_vend : List Nat := [9, 4, 1, 0, 2, 0xFF, 0, 0, 0]

/-- The class-specific descriptor that follows the vendor interface. -/
def sample_cls : List Nat := [9, 0x5F, 1, 0, 7, 0, 0, 0, 0]

/-- The IN endpoint of the vendor interface. -/
def sample_in : List Nat := [7, 5, 0x82, 3, 8, 0, 4]

/-- The bulk-OUT endpoint of the vendor interface. -/
def sample_out : List Nat := [7, 5, 0x01, 2, 0, 2, 0]

/-- The memory that holds the sample configuration. -/
def sample_mem : Nat → Nat :=
  mem_of_list (config_bytes sample_hdr [sample_hid] sample_vend sample_cls [sample_in]
    sample_out [] [])

/-- A configuration of declared length 34 whose class-specific descriptor
claims 200 bytes. -/
def cfg_overrun : List Nat :=
  [9, 2, 34, 0, 1, 1, 0, 0x80, 50,
   9, 4, 0, 0, 1, 0xFF, 0, 0, 0,
   200, 0x5F, 1, 0, 7, 0, 0, 0, 0, 0, 0, 0, 0, 0, 0, 0]

/-- Memory that holds `cfg_overrun` in its first 34 bytes and, at offset 218,
the bytes of an endpoint descriptor with address `a`. -/
def mem_overrun (a : Nat) : Nat → Nat :=
  fun i => if i = 218 then 7 else if i = 219 then 5 else if i = 220 then a
    else mem_of_list cfg_overrun i

/-- Sample answers of the collaborators of `dlo_check_device` for a
DisplayLink device whose serial string descriptor is that of "AB". -/
def env_displaylink : check_env :=
  ⟨0x17E9, true, 0xB0, (0, mem_of_list serial_AB), true, true⟩

/-- A configuration whose vendor interface has a class-specific descriptor and
one IN endpoint, and no OUT endpoint; `wTotalLength = 34`. -/
def cfg_no_out : List Nat :=
  [9, 2, 34, 0, 1, 1, 0, 0x80, 50,
   9, 4, 0, 0, 1, 0xFF, 0, 0, 0,
   9, 0x5F, 1, 0, 7, 0, 0, 0, 0,
   7, 5, 0x81, 2, 0, 2, 0]

/-- A configuration whose interface association declares 0 interfaces, so the
span computed for the interface after it is 0; `wTotalLength = 26`. -/
def cfg_empty_assoc : List Nat :=
  [9, 2, 26, 0, 1, 1, 0, 0x80, 50,
   8, 0x0B, 0, 0, 0xFF, 0, 0, 0,
   9, 4, 0, 0, 0, 0xFF, 0, 0, 0]

/-- A configuration whose first top-level descriptor is a class-specific
descriptor (type `0x24`), not an interface; `wTotalLength = 14`. -/
def cfg_not_itf : List Nat :=
  [9, 2, 14, 0, 1, 1, 0, 0x80, 50,
   5, 0x24, 0, 0x10, 1]

/-- A configuration with one HID interface and no vendor-specific interface;
`wTotalLength = 34`. -/
def cfg_hid_only : List Nat :=
  [9, 2, 34, 0, 1, 1, 0, 0x80, 50,
   9, 4, 0, 0, 1, 3, 0, 0, 0,
   9, 0x21, 0x11, 1, 0, 1, 0x22, 63, 0,
   7, 5, 0x81, 3, 8, 0, 10]

/-- Sample device answers: status 0 and data `i + 1` for read `i`. -/
def resp_all_ok : Nat → Nat × Nat := fun i => (0, i + 1)

/-- An unclaimed record without staging buffer, as `dlo_check_device` creates
it: bus address 1, no endpoint yet. -/
def dev_fresh : dlo_device_t :=
  ⟨dlo_devtype_t.dlo_dev_alex, [0x42], false, 0, 0, 0, 0, some ⟨1, ret_u8.value 0⟩⟩

/-- Sample answers of the collaborators of `dlo_usb_open`: the sample
configuration is fetched, the endpoint opens, `dlo_malloc(BUF_SIZE)` returns
the address in `alloc`, and the EDID read fails at once. -/
def open_env_sample (alloc : Nat) : open_env :=
  ⟨(XFER_RESULT_SUCCESS, sample_mem), fun _ _ => true, alloc, true, fun _ => (1, 0),
    fun _ => dlo_retcode_t.dlo_ok⟩

/-- The bytes the specification gives for one 16-bit code unit `u`: the byte
`u` below `0x80`, the standard two-byte form below `0x800`, and otherwise
`E0|(u>>12)`, `80|((u>>6)&3F)`, `80|(u&3F)`. -/
def enc (u : Nat) : List Nat :=
  if u < 0x80 then [u]
  else if u < 0x800 then [0xC0 + u / 64, 0x80 + u % 64]
  else [0xE0 ||| (u >>> 12), 0x80 ||| ((u >>> 6) &&& 0x3F), 0x80 ||| (u &&& 0x3F)]

/-- The UTF-8 encoding of a code point below `0x10000`, in arithmetic form:
`0xxxxxxx`, `110xxxxx 10xxxxxx` or `1110xxxx 10xxxxxx 10xxxxxx`. -/
def utf8_encode (cp : Nat) : List Nat :=
  if cp < 0x80 then [cp]
  else if cp < 0x800 then [0xC0 + cp / 64, 0x80 + cp % 64]
  else [0xE0 + cp / 4096, 0x80 + (cp / 64) % 64, 0x80 + cp % 64]

/-- Store of the bytes of `l` from offset `p` on, in order. -/
def wr_list (mem : Nat → Nat) (p : Nat) : List Nat → (Nat → Nat)
  | [] => mem
  | b :: bs => wr_list (wr mem p b) (p + 1) bs

/-- Memory with the code units `0x0041`, `0x00E9`, `0x20AC` at offset 0 and
`0xD83D`, `0xDE00` (a surrogate pair) after them, little-endian. -/
def utf16_sample : Nat → Nat :=
  mem_of_list [0x41, 0x00, 0xE9, 0x00, 0xAC, 0x20, 0x3D, 0xD8, 0x00, 0xDE]

/-- A configuration with one HID-class interface followed by a class-specific
sub-descriptor (type `0x24`) whose `bLength` is 0; `wTotalLength = 20`. -/
def cfg_zero_blength : List Nat :=
  [9, 2, 20, 0, 1, 1, 0, 0x80, 50,
   9, 4, 0, 0, 0, 3, 0, 0, 0,
   0, 0x24]

/-- A configuration descriptor that declares `wTotalLength = 0`, followed by
one HID-class interface. -/
def cfg_zero_total : List Nat :=
  [9, 2, 0, 0, 1, 1, 0, 0x80, 50,
   9, 4, 0, 0, 0, 3, 0, 0, 0]

/-- A string descriptor whose length byte is 1: `bLength = 1`, type 3. -/
def serial_len_1 : List Nat := [1, 3]

/-- The string descriptor of a serial of 86 characters "€" (`U+20AC`):
`bLength = 174`, type 3, then the code units. -/
def serial_euro_86 : List Nat := [174, 3] ++ (List.replicate 86 [0xAC, 0x20]).flatten

/-- The 255-byte `string` array of `dlo_check_device` after the fetch of
`serial_euro_86` (zero behind the descriptor), followed by what lies behind
the array, here bytes `0x55`, so that a store behind the array shows. -/
def string_euro_86 : Nat → Nat :=
  fun i => if i < 255 then serial_euro_86.getD i 0 else 0x55

/-- The string descriptor of the eight-character serial "ああああああああ"
(`U+3042` eight times): `bLength = 18`, type 3, then the code units. -/
def serial_hiragana : List Nat :=
  [18, 3, 0x42, 0x30, 0x42, 0x30, 0x42, 0x30, 0x42, 0x30,
   0x42, 0x30, 0x42, 0x30, 0x42, 0x30, 0x42, 0x30]

/-- Answers of the collaborators of `dlo_usb_open` when the device delivers
the configuration `cfg_zero_blength`: the fetch succeeds, the endpoint would
open, `dlo_malloc(BUF_SIZE)` returns `0x2000`, and the EDID read would get its
memory and zero status bytes. -/
def open_env_zero_blength : open_env :=
  ⟨(XFER_RESULT_SUCCESS, mem_of_list cfg_zero_blength), fun _ _ => true, 0x2000, true,
    fun _ => (0, 0), fun _ => dlo_retcode_t.dlo_ok⟩

/-- The string descriptor of the serial "éA" (`U+00E9`, `U+0041`):
`bLength = 6`, type 3, then the code units. -/
def serial_eA : List Nat := [6, 3, 0xE9, 0x00, 0x41, 0x00]

/-! # Properties -/

/-! ## Bulk command writer -/

theorem spec_chunks_zero (cnct : dlo_usb_dev_t) (B buf : Nat) (hB : 0 < B) :
    spec_chunks cnct B buf 0 = [] := by
  have h : (0 + B - 1) / B = 0 := by
    rw [Nat.div_eq_zero_iff hB]; omega
  unfold spec_chunks
  rw [h]; rfl

theorem spec_chunks_last (cnct : dlo_usb_dev_t) (B buf n : Nat) (hn : 0 < n) (hle : n ≤ B) :
    spec_chunks cnct B buf n = [⟨cnct.udev, cnct.uhand, n, buf⟩] := by
  have h : (n + B - 1) / B = 1 := by
    apply Nat.div_eq_of_lt_le <;> omega
  simp [spec_chunks, h, List.range_succ, Nat.min_eq_right hle]

theorem spec_chunks_step (cnct : dlo_usb_dev_t) (B buf n : Nat) (hB : 0 < B) (hlt : B < n) :
    spec_chunks cnct B buf n =
      ⟨cnct.udev, cnct.uhand, B, buf⟩ :: spec_chunks cnct B (buf + B) (n - B) := by
  have h : (n + B - 1) / B = (n - B + B - 1) / B + 1 := by
    rw [← Nat.add_div_right _ hB]; congr 1; omega
  unfold spec_chunks
  rw [h, List.range_succ_eq_map, List.map_cons, List.map_map]
  congr 1
  · simp; omega
  · apply List.map_congr_left
    intro j _
    simp only [Function.comp, tuh_xfer_t.mk.injEq, true_and]
    constructor
    · congr 1; rw [Nat.succ_mul]; omega
    · rw [Nat.succ_mul]; omega

theorem write_loop_spec (eng : bulk_engine) (B : Nat) (cnct : dlo_usb_dev_t) (hB : 0 < B) :
    ∀ fuel j buf size, size ≤ fuel →
      ∃ t, write_loop eng B cnct fuel j buf size = some (spec_chunks cnct B buf size, t) := by
  intro fuel
  induction fuel with
  | zero =>
    intro j buf size h
    have : size = 0 := by omega
    subst this
    exact ⟨0, by simp [write_loop, spec_chunks_zero cnct B buf hB]⟩
  | succ fuel ih =>
    intro j buf size h
    by_cases hs : size = 0
    · subst hs
      exact ⟨0, by simp [write_loop, spec_chunks_zero cnct B buf hB]⟩
    · by_cases hlt : B < size
      · obtain ⟨t, ht⟩ := ih (j + 1) (buf + B) (size - B) (by omega)
        refine ⟨busy_wait (eng.busy_polls j) + t, ?_⟩
        simp [write_loop, hs, hlt, ht, spec_chunks_step cnct B buf size hB hlt]
      · obtain ⟨t, ht⟩ := ih (j + 1) (buf + size) (size - size) (by omega)
        refine ⟨busy_wait (eng.busy_polls j) + t, ?_⟩
        have hz : size - size = 0 := by omega
        rw [hz, spec_chunks_zero cnct B _ hB] at ht
        simp [write_loop, hs, hlt, ht, spec_chunks_last cnct B buf size (by omega) (by omega)]

theorem bytes_at_add (mem : Nat → Nat) (p a b : Nat) :
    bytes_at mem p (a + b) = bytes_at mem p a ++ bytes_at mem (p + a) b := by
  unfold bytes_at
  rw [List.range_add, List.map_append, List.map_map]
  congr 1
  apply List.map_congr_left
  intro i _
  simp [Function.comp, Nat.add_assoc]

theorem spec_chunks_bytes (cnct : dlo_usb_dev_t) (mem : Nat → Nat) (B : Nat) (hB : 0 < B) :
    ∀ n buf, ((spec_chunks cnct B buf n).map (fun x => bytes_at mem x.buffer x.buflen)).flatten
      = bytes_at mem buf n := by
  intro n
  induction n using Nat.strong_induction_on with
  | _ n ih =>
    intro buf
    by_cases h0 : n = 0
    · subst h0
      simp [spec_chunks_zero cnct B buf hB, bytes_at]
    · by_cases hlt : B < n
      · rw [spec_chunks_step cnct B buf n hB hlt, List.map_cons, List.flatten_cons,
          ih (n - B) (by omega) (buf + B)]
        have : n = B + (n - B) := by omega
        conv_rhs => rw [this, bytes_at_add]
      · rw [spec_chunks_last cnct B buf n (by omega) (by omega)]
        simp

theorem spec_chunks_length (cnct : dlo_usb_dev_t) (B buf n : Nat) :
    (spec_chunks cnct B buf n).length = (n + B - 1) / B := by
  simp [spec_chunks]

theorem spec_chunks_get (cnct : dlo_usb_dev_t) (B buf n j : Nat)
    (hj : j < (spec_chunks cnct B buf n).length) :
    (spec_chunks cnct B buf n)[j]? = some ⟨cnct.udev, cnct.uhand, min B (n - j * B), buf + j * B⟩ := by
  rw [spec_chunks_length] at hj
  simp [spec_chunks, List.getElem?_map, List.getElem?_range hj]

theorem spec_chunks_le (cnct : dlo_usb_dev_t) (B buf n : Nat) :
    ∀ x ∈ spec_chunks cnct B buf n, x.buflen ≤ B := by
  intro x hx
  simp only [spec_chunks, List.mem_map, List.mem_range] at hx
  obtain ⟨j, _, rfl⟩ := hx
  exact Nat.min_le_left _ _

theorem spec_chunks_double (cnct : dlo_usb_dev_t) (B buf : Nat) (hB : 0 < B) :
    spec_chunks cnct B buf (2 * B) =
      [⟨cnct.udev, cnct.uhand, B, buf⟩, ⟨cnct.udev, cnct.uhand, B, buf + B⟩] := by
  rw [spec_chunks_step cnct B buf (2 * B) hB (by omega)]
  have : 2 * B - B = B := by omega
  rw [this, spec_chunks_last cnct B (buf + B) B hB (Nat.le_refl _)]

theorem write_buf_spec (eng : bulk_engine) (B fuel : Nat) (dev : dlo_device_t)
    (cnct : dlo_usb_dev_t) (buf n : Nat) (hclaimed : dev.claimed = true)
    (hcnct : dev.cnct = some cnct) (hB : 0 < B) (hfuel : n ≤ fuel) :
    ∃ t, dlo_usb_write_buf eng B fuel dev buf n =
      run.done ⟨dlo_retcode_t.dlo_ok, spec_chunks cnct B buf n, t⟩ := by
  by_cases hn : n = 0
  · subst hn
    exact ⟨0, by simp [dlo_usb_write_buf, hclaimed, spec_chunks_zero cnct B buf hB]⟩
  · obtain ⟨t, ht⟩ := write_loop_spec eng B cnct hB fuel 0 buf n hfuel
    exact ⟨t, by simp [dlo_usb_write_buf, hclaimed, hn, hcnct, ht]⟩

/-- C4: on a claimed record with a Connection, a buffer of `n > 0` bytes and
`BUF_SIZE > 0`, `dlo_usb_write_buf` returns `dlo_ok` after submitting exactly
`ceil(n / BUF_SIZE)` bulk transfers to the record's bus address and endpoint;
transfer `j` starts at `buf + j * BUF_SIZE` and carries
`min BUF_SIZE (n - j * BUF_SIZE)` bytes, so no transfer exceeds `BUF_SIZE`
bytes and the transfers concatenated in order are the buffer; a buffer of
`2 * BUF_SIZE` bytes gives two full transfers in order. -/
theorem dlo_usb_write_buf_chunks (eng : bulk_engine) (B fuel : Nat) (dev : dlo_device_t)
    (cnct : dlo_usb_dev_t) (mem : Nat → Nat) (buf n : Nat) (hclaimed : dev.claimed = true)
    (hcnct : dev.cnct = some cnct) (hB : 0 < B) (hn : 0 < n) (hfuel : n ≤ fuel) :
    ∃ xs t, dlo_usb_write_buf eng B fuel dev buf n = run.done ⟨dlo_retcode_t.dlo_ok, xs, t⟩ ∧
      xs.length = (n + B - 1) / B ∧
      (∀ j, j < xs.length →
        xs[j]? = some ⟨cnct.udev, cnct.uhand, min B (n - j * B), buf + j * B⟩) ∧
      (∀ x ∈ xs, x.buflen ≤ B) ∧
      (xs.map (fun x => bytes_at mem x.buffer x.buflen)).flatten = bytes_at mem buf n ∧
      (n = 2 * B →
        xs = [⟨cnct.udev, cnct.uhand, B, buf⟩, ⟨cnct.udev, cnct.uhand, B, buf + B⟩]) := by
  obtain ⟨t, ht⟩ := write_buf_spec eng B fuel dev cnct buf n hclaimed hcnct hB hfuel
  refine ⟨spec_chunks cnct B buf n, t, ht, spec_chunks_length cnct B buf n,
    fun j hj => spec_chunks_get cnct B buf n j hj, spec_chunks_le cnct B buf n,
    spec_chunks_bytes cnct mem B hB n buf, ?_⟩
  intro h2
  subst h2
  exact spec_chunks_double cnct B buf hB

/-- C4 (witness): a claimed record, `BUF_SIZE = 2` and a buffer of four bytes. -/
theorem dlo_usb_write_buf_chunks_witness :
    dev_example.claimed = true ∧ dev_example.cnct = some cnct_example ∧ 0 < 2 ∧ 0 < 4 ∧ 4 ≤ 4 ∧
    ∃ xs t, dlo_usb_write_buf engine_idle 2 4 dev_example 0x1000 4 =
        run.done ⟨dlo_retcode_t.dlo_ok, xs, t⟩ ∧
      xs.length = (4 + 2 - 1) / 2 ∧
      (∀ j, j < xs.length →
        xs[j]? = some ⟨cnct_example.udev, cnct_example.uhand, min 2 (4 - j * 2), 0x1000 + j * 2⟩) ∧
      (∀ x ∈ xs, x.buflen ≤ 2) ∧
      (xs.map (fun x => bytes_at (fun i => i) x.buffer x.buflen)).flatten
        = bytes_at (fun i => i) 0x1000 4 ∧
      (4 = 2 * 2 →
        xs = [⟨cnct_example.udev, cnct_example.uhand, 2, 0x1000⟩,
          ⟨cnct_example.udev, cnct_example.uhand, 2, 0x1000 + 2⟩]) :=
  ⟨rfl, rfl, by decide, by decide, by decide,
    dlo_usb_write_buf_chunks engine_idle 2 4 dev_example cnct_example (fun i => i) 0x1000 4
      rfl rfl (by decide) (by decide) (by decide)⟩

/-- C5: whatever the buffer and its size, `dlo_usb_write_buf` on a record whose
claimed flag is false returns `dlo_err_unclaimed` and submits no transfer, also
when the size is 0 (the claimed check comes first); on a claimed record with
size 0 it returns `dlo_ok` and submits no transfer. -/
theorem dlo_usb_write_buf_unclaimed_or_empty (eng : bulk_engine) (B fuel : Nat)
    (dev : dlo_device_t) (buf size : Nat) :
    dlo_usb_write_buf eng B fuel { dev with claimed := false } buf size
      = run.done ⟨dlo_retcode_t.dlo_err_unclaimed, [], 0⟩ ∧
    dlo_usb_write_buf eng B fuel { dev with claimed := false } buf 0
      = run.done ⟨dlo_retcode_t.dlo_err_unclaimed, [], 0⟩ ∧
    dlo_usb_write_buf eng B fuel { dev with claimed := true } buf 0
      = run.done ⟨dlo_retcode_t.dlo_ok, [], 0⟩ := by
  simp [dlo_usb_write_buf]

/-- C9 (counterexample): the engine reports failure for the first of two
chunks, yet `dlo_usb_write_buf` submits the second chunk as well and returns
`dlo_ok`. -/
theorem dlo_usb_write_buf_failure_unreported :
    engine_failing.edpt_xfer 0 = false ∧
    dlo_usb_write_buf engine_failing 2 4 dev_example 0x1000 4 =
      run.done ⟨dlo_retcode_t.dlo_ok,
        [⟨1, ret_u8.value 1, 2, 0x1000⟩, ⟨1, ret_u8.value 1, 2, 0x1002⟩], 2⟩ := by
  decide

/-- C9 (amended): `dlo_usb_write_buf` does not look at what `tuh_edpt_xfer`
reports. On a claimed record with a Connection and `BUF_SIZE > 0`, whatever
status the engine reports for each chunk (failure included), every chunk is
submitted in order (`ceil(n / BUF_SIZE)` transfers, transfer `i` at
`buf + i * BUF_SIZE`) and the return code is `dlo_ok`; the result is the one
obtained from an engine that accepts every transfer. -/
theorem dlo_usb_write_buf_status_blind (status : Nat → Bool) (polls : Nat → Nat) (B fuel : Nat)
    (dev : dlo_device_t) (cnct : dlo_usb_dev_t) (buf n : Nat) (hclaimed : dev.claimed = true)
    (hcnct : dev.cnct = some cnct) (hB : 0 < B) (hfuel : n ≤ fuel) :
    ∃ xs t, dlo_usb_write_buf ⟨status, polls⟩ B fuel dev buf n
        = run.done ⟨dlo_retcode_t.dlo_ok, xs, t⟩ ∧
      xs.length = (n + B - 1) / B ∧
      (∀ i, i < xs.length →
        xs[i]? = some ⟨cnct.udev, cnct.uhand, min B (n - i * B), buf + i * B⟩) ∧
      dlo_usb_write_buf ⟨fun _ => true, polls⟩ B fuel dev buf n
        = dlo_usb_write_buf ⟨status, polls⟩ B fuel dev buf n := by
  obtain ⟨t, ht⟩ := write_buf_spec ⟨status, polls⟩ B fuel dev cnct buf n hclaimed hcnct hB hfuel
  refine ⟨spec_chunks cnct B buf n, t, ht, spec_chunks_length cnct B buf n,
    fun i hi => spec_chunks_get cnct B buf n i hi, ?_⟩
  have hloop : ∀ fuel k b s, write_loop ⟨fun _ => true, polls⟩ B cnct fuel k b s
      = write_loop ⟨status, polls⟩ B cnct fuel k b s := by
    intro fuel
    induction fuel with
    | zero => intro k b s; rfl
    | succ fuel ih => intro k b s; simp only [write_loop, ih]
  simp only [dlo_usb_write_buf, hcnct, hloop]

/-- C9 (witness): an engine that reports failure for every chunk,
`BUF_SIZE = 2`, four bytes. -/
theorem dlo_usb_write_buf_status_blind_witness :
    dev_example.claimed = true ∧ dev_example.cnct = some cnct_example ∧ 0 < 2 ∧ 4 ≤ 4 ∧
    ∃ xs t, dlo_usb_write_buf ⟨fun _ => false, fun _ => 1⟩ 2 4 dev_example 0x1000 4 =
        run.done ⟨dlo_retcode_t.dlo_ok, xs, t⟩ ∧
      xs.length = (4 + 2 - 1) / 2 ∧
      (∀ i, i < xs.length →
        xs[i]? = some ⟨cnct_example.udev, cnct_example.uhand, min 2 (4 - i * 2), 0x1000 + i * 2⟩) ∧
      dlo_usb_write_buf ⟨fun _ => true, fun _ => 1⟩ 2 4 dev_example 0x1000 4
        = dlo_usb_write_buf ⟨fun _ => false, fun _ => 1⟩ 2 4 dev_example 0x1000 4 :=
  ⟨rfl, rfl, by decide, by decide,
    dlo_usb_write_buf_status_blind (fun _ => false) (fun _ => 1) 2 4 dev_example cnct_example
      0x1000 4 rfl rfl (by decide) (by decide)⟩

/-- C10: for every record, claimed or not, whose Connection is present when
it is claimed, and `BUF_SIZE > 0`, `dlo_usb_write` returns; its return code
and transfers are those of `dlo_usb_write_buf` on the bytes from `buffer` to
the old `bufptr`, whatever that code is; afterwards `bufptr` equals `buffer`,
and `buffer`, `bufend`, `claimed`, `timeout`, the Connection, the type and the
serial are unchanged. -/
theorem dlo_usb_write_resets_cursor (eng : bulk_engine) (B fuel : Nat) (dev : dlo_device_t)
    (hcnct : dev.claimed = true → dev.cnct ≠ none) (hB : 0 < B)
    (hfuel : Int.toNat (((dev.bufptr : Int) - (dev.buffer : Int)) % (SIZE_T_MOD : Int)) ≤ fuel) :
    ∃ r, dlo_usb_write_buf eng B fuel dev dev.buffer
          (Int.toNat (((dev.bufptr : Int) - (dev.buffer : Int)) % (SIZE_T_MOD : Int)))
        = run.done r ∧
      dlo_usb_write eng B fuel dev =
        run.done (⟨dev.type, dev.serial, dev.claimed, dev.buffer, dev.buffer, dev.bufend,
          dev.timeout, dev.cnct⟩, r) := by
  by_cases hclaimed : dev.claimed = true
  · obtain ⟨cnct, hc⟩ := Option.ne_none_iff_exists'.mp (hcnct hclaimed)
    obtain ⟨t, ht⟩ := write_buf_spec eng B fuel dev cnct dev.buffer _ hclaimed hc hB hfuel
    exact ⟨_, ht, by simp only [dlo_usb_write, ht]⟩
  · have h : dlo_usb_write_buf eng B fuel dev dev.buffer
        (Int.toNat (((dev.bufptr : Int) - (dev.buffer : Int)) % (SIZE_T_MOD : Int)))
        = run.done ⟨dlo_retcode_t.dlo_err_unclaimed, [], 0⟩ := by
      simp [dlo_usb_write_buf, hclaimed]
    exact ⟨_, h, by simp only [dlo_usb_write, h]⟩

/-- C10 (witness): the example record with four staged bytes and `BUF_SIZE = 2`. -/
theorem dlo_usb_write_resets_cursor_witness :
    (dev_example.claimed = true → dev_example.cnct ≠ none) ∧ 0 < 2 ∧
    Int.toNat (((dev_example.bufptr : Int) - (dev_example.buffer : Int)) % (SIZE_T_MOD : Int)) ≤ 4 ∧
    ∃ r, dlo_usb_write_buf engine_idle 2 4 dev_example dev_example.buffer
          (Int.toNat (((dev_example.bufptr : Int) - (dev_example.buffer : Int))
            % (SIZE_T_MOD : Int)))
        = run.done r ∧
      dlo_usb_write engine_idle 2 4 dev_example =
        run.done (⟨dev_example.type, dev_example.serial, dev_example.claimed, dev_example.buffer,
          dev_example.buffer, dev_example.bufend, dev_example.timeout, dev_example.cnct⟩, r) :=
  ⟨by decide, by decide, by decide,
    dlo_usb_write_resets_cursor engine_idle 2 4 dev_example (by decide) (by decide)
      (by decide)⟩

/-! ## EDID reader -/

theorem read_edid_loop_abort (resp : Nat → Nat × Nat) (parse_edid : List Nat → dlo_retcode_t)
    (daddr k : Nat) (hk : (resp k).1 % 256 ≠ 0) :
    ∀ n i edid reqs, i ≤ k → k < i + n → (∀ j, i ≤ j → j < k → (resp j).1 % 256 = 0) →
      read_edid_loop resp parse_edid daddr n i edid reqs =
        ⟨dlo_retcode_t.dlo_err_iic_op,
          reqs ++ (List.range' i (k + 1 - i)).map (edid_request daddr), []⟩ := by
  intro n
  induction n with
  | zero => intro i edid reqs h1 h2 _; omega
  | succ n ih =>
    intro i edid reqs h1 h2 hz
    by_cases hik : i = k
    · subst hik
      have : i + 1 - i = 1 := by omega
      simp [read_edid_loop, hk, this]
    · have hzi : (resp i).1 % 256 = 0 := hz i (Nat.le_refl _) (by omega)
      have hlen : k + 1 - i = (k + 1 - (i + 1)) + 1 := by omega
      rw [read_edid_loop]
      simp only [hzi, ne_eq, not_true_eq_false, if_false]
      rw [ih (i + 1) _ _ (by omega) (by omega) (fun j hj1 hj2 => hz j (by omega) hj2)]
      rw [hlen, List.range'_succ, List.map_cons, List.append_assoc]
      rfl

/-- When `dlo_malloc` of the EDID block fails, `read_edid` leaves through
`NERR` before it touches the record: it returns `dlo_err_memory`, issues no
control request and does not call `dlo_mode_parse_edid`. -/
theorem read_edid_malloc_fails (resp : Nat → Nat × Nat) (parse_edid : List Nat → dlo_retcode_t)
    (dev : dlo_device_t) :
    read_edid false resp parse_edid dev = run.done ⟨dlo_retcode_t.dlo_err_memory, [], []⟩ := by
  simp [read_edid]

/-- C6 (counterexample): when `dlo_malloc` of the EDID block fails, `read_edid`
returns `dlo_err_memory` and issues no control request, although the device
would answer read 0 with a non-zero status byte. -/
theorem read_edid_no_memory :
    ((fun _ => (1, 0)) 0 : Nat × Nat).1 % 256 ≠ 0 ∧
    read_edid false (fun _ => (1, 0)) (fun _ => dlo_retcode_t.dlo_ok) dev_example =
      run.done ⟨dlo_retcode_t.dlo_err_memory, [], []⟩ := by
  decide

/-- C6 (amended): when `dlo_malloc` of the EDID block succeeds, for every
`k < 128`, if the status byte is zero for reads `0..k-1` and non-zero for read
`k`, `read_edid` returns `dlo_err_iic_op`, has issued exactly the `k + 1`
control requests of rounds `0..k`, and has not called `dlo_mode_parse_edid`.
When that `dlo_malloc` fails, `read_edid` returns `dlo_err_memory` and issues
no control request, for every device answer, collaborator and record. -/
theorem read_edid_status_abort (resp : Nat → Nat × Nat) (parse_edid : List Nat → dlo_retcode_t)
    (dev : dlo_device_t) (cnct : dlo_usb_dev_t) (k : Nat) (hcnct : dev.cnct = some cnct)
    (hk : k < 128) (hzero : ∀ i, i < k → (resp i).1 % 256 = 0) (hbad : (resp k).1 % 256 ≠ 0) :
    read_edid true resp parse_edid dev =
      run.done ⟨dlo_retcode_t.dlo_err_iic_op,
        (List.range (k + 1)).map (edid_request cnct.udev), []⟩ ∧
    ((List.range (k + 1)).map (edid_request cnct.udev)).length = k + 1 ∧
    (∀ (r : Nat → Nat × Nat) (p : List Nat → dlo_retcode_t) (d : dlo_device_t),
      read_edid false r p d = run.done ⟨dlo_retcode_t.dlo_err_memory, [], []⟩) := by
  have h := read_edid_loop_abort resp parse_edid cnct.udev k hbad EDID_STRUCT_SZ 0 [] []
    (Nat.zero_le _) (by simp [EDID_STRUCT_SZ]; omega) (fun j _ hj => hzero j hj)
  refine ⟨?_, ?_, fun r p d => read_edid_malloc_fails r p d⟩
  · simp only [read_edid, hcnct, h, List.nil_append, Nat.sub_zero, List.range_eq_range']
    simp
  · simp

/-- C6 (witness): the 65th status byte (read 64) is the first non-zero one. -/
theorem read_edid_status_abort_witness :
    dev_example.cnct = some cnct_example ∧ 64 < 128 ∧
    (∀ i, i < 64 → (resp_fail_64 i).1 % 256 = 0) ∧ (resp_fail_64 64).1 % 256 ≠ 0 ∧
    read_edid true resp_fail_64 (fun _ => dlo_retcode_t.dlo_ok) dev_example =
      run.done ⟨dlo_retcode_t.dlo_err_iic_op,
        (List.range (64 + 1)).map (edid_request cnct_example.udev), []⟩ ∧
    ((List.range (64 + 1)).map (edid_request cnct_example.udev)).length = 64 + 1 ∧
    (∀ (r : Nat → Nat × Nat) (p : List Nat → dlo_retcode_t) (d : dlo_device_t),
      read_edid false r p d = run.done ⟨dlo_retcode_t.dlo_err_memory, [], []⟩) :=
  ⟨rfl, by decide, by decide, by decide,
    read_edid_status_abort resp_fail_64 (fun _ => dlo_retcode_t.dlo_ok) dev_example cnct_example
      64 rfl (by decide) (by decide) (by decide)⟩

/-! ## Device identifier -/

/-- C8: for every bus address whose vendor identifier is not `0x17E9`,
`dlo_check_device` returns `dlo_err_unsupported`, makes no control transfer
and no string-descriptor fetch, and leaves the registry as it was. -/
theorem dlo_check_device_foreign_vendor (code : dlo_devtype_t → Nat) (env : check_env)
    (registry : List dlo_device_t) (daddr : Nat) (hvid : env.VID ≠ 0x17E9) :
    dlo_check_device code env registry daddr =
      run.done ⟨dlo_retcode_t.dlo_err_unsupported, registry, []⟩ := by
  have h : env.VID ≠ VENDORID_DISPLAYLINK := hvid
  simp [dlo_check_device, h, UERR]

/-- C8 (witness): a device with vendor identifier `0x046D` at bus address 3. -/
theorem dlo_check_device_foreign_vendor_witness :
    env_foreign.VID ≠ 0x17E9 ∧
    dlo_check_device (fun _ => 0) env_foreign [dev_example] 3 =
      run.done ⟨dlo_retcode_t.dlo_err_unsupported, [dev_example], []⟩ :=
  ⟨by decide, dlo_check_device_foreign_vendor (fun _ => 0) env_foreign [dev_example] 3 (by decide)⟩

/-! ## Serial-string decoder -/

/-- C3 (failing input): for the successfully fetched descriptor of "AB" the
buffer afterwards starts with `0x42, 0, 0`: the conversion starts at the second
code unit, the first character `0x41` is lost and the C string left in the
buffer is "B", not "AB". -/
theorem serial_string_drops_first_unit :
    (tuh_descriptor_get_serial_string_sync_utf8 (XFER_RESULT_SUCCESS, mem_of_list serial_AB)).1
      = XFER_RESULT_SUCCESS ∧
    bytes_at (tuh_descriptor_get_serial_string_sync_utf8
      (XFER_RESULT_SUCCESS, mem_of_list serial_AB)).2 0 3 = [0x42, 0, 0] ∧
    c_string (tuh_descriptor_get_serial_string_sync_utf8
      (XFER_RESULT_SUCCESS, mem_of_list serial_AB)).2 = [0x42] ∧
    _count_utf8_bytes (mem_of_list serial_AB) 2 2 = 2 := by
  decide

/-! ## Descriptor parser -/

theorem holds_append (mem : Nat → Nat) (p : Nat) (a b : List Nat) :
    holds mem p (a ++ b) ↔ holds mem p a ∧ holds mem (p + a.length) b := by
  constructor
  · intro h
    constructor
    · intro i hi
      have := h i (by rw [List.length_append]; omega)
      rw [this, List.getD_append _ _ _ _ hi]
    · intro i hi
      have := h (a.length + i) (by rw [List.length_append]; omega)
      rw [Nat.add_assoc, this, List.getD_append_right _ _ _ _ (by omega)]
      congr 1; omega
  · rintro ⟨ha, hb⟩ i hi
    rw [List.length_append] at hi
    by_cases hia : i < a.length
    · rw [ha i hia, List.getD_append _ _ _ _ hia]
    · have := hb (i - a.length) (by omega)
      rw [List.getD_append_right _ _ _ _ (by omega), ← this]
      congr 1; omega

theorem holds_rd (mem : Nat → Nat) (p : Nat) (l : List Nat) (h : holds mem p l) (i : Nat)
    (hi : i < l.length) : rd mem (p + i) = l.getD i 0 := h i hi

theorem holds_rd0 (mem : Nat → Nat) (p : Nat) (l : List Nat) (h : holds mem p l)
    (hi : 0 < l.length) : rd mem p = l.getD 0 0 := h 0 hi

theorem length_flatten_ge (subs : List (List Nat)) (h : ∀ d ∈ subs, is_sub_descriptor d) :
    2 * subs.length ≤ subs.flatten.length := by
  induction subs with
  | nil => simp
  | cons d ds ih =>
    have hd := (h d (List.mem_cons_self _ _)).1
    have := ih (fun x hx => h x (List.mem_cons_of_mem _ hx))
    simp only [List.flatten_cons, List.length_append, List.length_cons]
    omega

/-- The length carried by an exit of the inner loop. -/
theorem count_inner_chain (mem : Nat → Nat) (max_len : Nat) (hmax : max_len < 65536) :
    ∀ (subs : List (List Nat)) (fuel p len : Nat),
      (∀ d ∈ subs, is_sub_descriptor d) → holds mem p subs.flatten →
      subs.length < fuel →
      (len + subs.flatten.length = max_len ∨
        (len + subs.flatten.length < max_len ∧
          (tu_desc_type mem (p + subs.flatten.length) = TUSB_DESC_INTERFACE_ASSOCIATION ∨
            (tu_desc_type mem (p + subs.flatten.length) = TUSB_DESC_INTERFACE ∧
              bAlternateSetting mem (p + subs.flatten.length) = 0)))) →
      count_inner mem max_len fuel p len = some (inner_exit.returned (len + subs.flatten.length)) ∨
      count_inner mem max_len fuel p len
        = some (inner_exit.left (p + subs.flatten.length) (len + subs.flatten.length)) := by
  intro subs
  induction subs with
  | nil =>
    intro fuel p len _ _ hfuel hstop
    obtain ⟨fuel, rfl⟩ : ∃ f, fuel = f + 1 := ⟨fuel - 1, by simp at hfuel; omega⟩
    simp only [List.flatten_nil, List.length_nil, Nat.add_zero] at hstop ⊢
    rcases hstop with h | ⟨h, h2⟩
    · right
      simp [count_inner, h]
    · rcases h2 with h2 | ⟨h2, h3⟩
      · left
        simp [count_inner, h, h2]
      · right
        have hne : ¬ TUSB_DESC_INTERFACE = TUSB_DESC_INTERFACE_ASSOCIATION := by decide
        simp [count_inner, h, h2, h3, hne]
  | cons d ds ih =>
    intro fuel p len hsub hmem hfuel hstop
    obtain ⟨fuel, rfl⟩ : ∃ f, fuel = f + 1 := ⟨fuel - 1, by simp at hfuel; omega⟩
    obtain ⟨hd2, hd0, hd1, hd3⟩ := hsub d (List.mem_cons_self _ _)
    rw [List.flatten_cons] at hmem
    obtain ⟨hmd, hmds⟩ := (holds_append mem p d ds.flatten).mp hmem
    have hlen : (d :: ds).flatten.length = d.length + ds.flatten.length := by
      simp [List.flatten_cons]
    rw [hlen] at hstop ⊢
    have hlt : len < max_len := by omega
    have hr0 : rd mem p = d.length := by rw [holds_rd0 mem p d hmd (by omega), hd0]
    have hr1 : tu_desc_type mem p = d.getD 1 0 := holds_rd mem p d hmd 1 (by omega)
    have hnot : ¬ (tu_desc_type mem p = TUSB_DESC_INTERFACE ∧ bAlternateSetting mem p = 0) := by
      rintro ⟨ht, ha⟩
      obtain ⟨h4, h3⟩ := hd3 (by rw [← hr1]; exact ht)
      have : bAlternateSetting mem p = d.getD 3 0 := holds_rd mem p d hmd 3 (by omega)
      rw [this] at ha
      exact h3 ha
    have hstep : count_inner mem max_len (fuel + 1) p len
        = count_inner mem max_len fuel (p + d.length) (len + d.length) := by
      rw [count_inner]
      simp only [hlt, if_true, hr1, hd1, if_false]
      rw [← hr1, if_neg hnot]
      simp only [tu_desc_next, tu_desc_len, hr0]
      rw [Nat.mod_eq_of_lt (by omega)]
    rw [hstep]
    have := ih fuel (p + d.length) (len + d.length)
      (fun x hx => hsub x (List.mem_cons_of_mem _ hx)) hmds (by simp at hfuel; omega)
      (by
        rcases hstop with h | ⟨h, h2⟩
        · left; omega
        · right
          refine ⟨by omega, ?_⟩
          rw [Nat.add_assoc]; exact h2)
    rw [Nat.add_assoc, Nat.add_assoc] at this
    exact this

theorem span_to_end (e p : Nat) (hp : p ≤ e) (he : e < 65536) :
    Int.toNat (((e : Int) - (p : Int)) % 65536) = e - p := by
  have h : (e : Int) - (p : Int) = ((e - p : Nat) : Int) := by omega
  rw [h]
  have h2 : ((e - p : Nat) : Int) % 65536 = ((e - p : Nat) : Int) := by
    apply Int.emod_eq_of_lt <;> omega
  rw [h2]
  simp

theorem count_block (mem : Nat → Nat) (max_len : Nat) (hmax : max_len < 65536)
    (head : List Nat) (subs : List (List Nat)) (fuel p : Nat)
    (hlen : head.length = 9) (h0 : head.getD 0 0 = 9)
    (hsub : ∀ d ∈ subs, is_sub_descriptor d) (hmem : holds mem p (head ++ subs.flatten))
    (hfuel : subs.length < fuel)
    (hstop : 9 + subs.flatten.length = max_len ∨
      (9 + subs.flatten.length < max_len ∧
        (tu_desc_type mem (p + 9 + subs.flatten.length) = TUSB_DESC_INTERFACE_ASSOCIATION ∨
          (tu_desc_type mem (p + 9 + subs.flatten.length) = TUSB_DESC_INTERFACE ∧
            bAlternateSetting mem (p + 9 + subs.flatten.length) = 0)))) :
    count_interface_total_len mem fuel p 1 max_len = some (9 + subs.flatten.length) := by
  obtain ⟨hmh, hms⟩ := (holds_append mem p head subs.flatten).mp hmem
  rw [hlen] at hms
  have hr0 : rd mem p = 9 := by rw [holds_rd0 mem p head hmh (by omega), h0]
  have hc := count_inner_chain mem max_len hmax subs fuel (p + 9) 9 hsub hms hfuel hstop
  unfold count_interface_total_len
  rw [count_outer]
  simp only [tu_desc_next, tu_desc_len, hr0, Nat.zero_add]
  rw [Nat.mod_eq_of_lt (by decide : 9 < 65536)]
  rcases hc with hc | hc
  · rw [hc]
  · rw [hc]; simp [count_outer]

theorem endpoint_is_sub (e : List Nat) (h : is_endpoint e) : is_sub_descriptor e := by
  obtain ⟨h1, h2, h3⟩ := h
  refine ⟨by omega, by rw [h2, h1], by rw [h3]; decide, ?_⟩
  intro h4
  rw [h3] at h4
  exact absurd h4 (by decide)

theorem flatten_endpoints_length (ins : List (List Nat)) (h : ∀ e ∈ ins, is_endpoint e) :
    ins.flatten.length = 7 * ins.length := by
  induction ins with
  | nil => simp
  | cons e es ih =>
    have he := (h e (List.mem_cons_self _ _)).1
    have := ih (fun x hx => h x (List.mem_cons_of_mem _ hx))
    simp only [List.flatten_cons, List.length_append, List.length_cons]
    omega

theorem open_bulk_loop_ins (mem : Nat → Nat) (edpt_open : Nat → Nat → Bool) (daddr : Nat)
    (out : List Nat) (hout : is_endpoint out)
    (hdir : tu_edpt_dir (out.getD 2 0) = TUSB_DIR_OUT) :
    ∀ (ins : List (List Nat)) (n q : Nat),
      (∀ e ∈ ins, is_endpoint e ∧ tu_edpt_dir (e.getD 2 0) = TUSB_DIR_IN) →
      ins.length < n → holds mem q (ins.flatten ++ out) →
      edpt_open daddr (q + ins.flatten.length) = true →
      open_bulk_loop mem edpt_open daddr n q
        = ⟨ret_u8.value (out.getD 2 0), [q + ins.flatten.length]⟩ := by
  intro ins
  induction ins with
  | nil =>
    intro n q _ hn hmem hopen
    obtain ⟨n, rfl⟩ : ∃ m, n = m + 1 := ⟨n - 1, by simp at hn; omega⟩
    simp only [List.flatten_nil, List.nil_append, List.length_nil, Nat.add_zero] at hmem hopen ⊢
    obtain ⟨h1, _, h3⟩ := hout
    have ht : tu_desc_type mem q = TUSB_DESC_ENDPOINT := by
      rw [← h3]; exact holds_rd mem q out hmem 1 (by omega)
    have ha : bEndpointAddress mem q = out.getD 2 0 := holds_rd mem q out hmem 2 (by omega)
    rw [open_bulk_loop]
    simp only [ht, ha, hdir, hopen, ne_eq, not_true_eq_false, if_false, if_true]
  | cons e es ih =>
    intro n q hins hn hmem hopen
    obtain ⟨n, rfl⟩ : ∃ m, n = m + 1 := ⟨n - 1, by simp at hn; omega⟩
    obtain ⟨⟨h1, h2, h3⟩, hd⟩ := hins e (List.mem_cons_self _ _)
    rw [List.flatten_cons, List.append_assoc] at hmem
    obtain ⟨hme, hmes⟩ := (holds_append mem q e (es.flatten ++ out)).mp hmem
    have hr0 : rd mem q = 7 := by rw [holds_rd0 mem q e hme (by omega), h2]
    have ht : tu_desc_type mem q = TUSB_DESC_ENDPOINT := by
      rw [← h3]; exact holds_rd mem q e hme 1 (by omega)
    have ha : bEndpointAddress mem q = e.getD 2 0 := holds_rd mem q e hme 2 (by omega)
    have hlen : (e :: es).flatten.length = 7 + es.flatten.length := by
      simp [List.flatten_cons, h1]
    have hnot : ¬ tu_edpt_dir (e.getD 2 0) = TUSB_DIR_OUT := by
      rw [hd]; decide
    rw [hlen, ← Nat.add_assoc] at hopen
    rw [h1] at hmes
    have := ih n (q + 7) (fun x hx => hins x (List.mem_cons_of_mem _ hx))
      (by simp at hn; omega) hmes hopen
    rw [open_bulk_loop]
    simp only [ht, ha, hnot, ne_eq, not_true_eq_false, if_false, tu_desc_next, hr0]
    rw [this, hlen, Nat.add_assoc]

theorem parse_loop_itf (mem : Nat → Nat) (edpt_open : Nat → Nat → Bool)
    (dev_addr desc_end cfuel fuel p drv_len : Nat)
    (hp : p < desc_end) (hend : desc_end < 65536)
    (ht : tu_desc_type mem p = TUSB_DESC_INTERFACE)
    (hcount : count_interface_total_len mem cfuel p 1 (desc_end - p) = some drv_len)
    (hdrv : 9 ≤ drv_len) :
    parse_loop mem edpt_open dev_addr desc_end cfuel (fuel + 1) p =
      if bInterfaceClass mem p = TUSB_CLASS_VENDOR_SPECIFIC then
        some (open_bulk_endpoint mem edpt_open dev_addr p drv_len)
      else parse_loop mem edpt_open dev_addr desc_end cfuel fuel (p + drv_len) := by
  have hne : ¬ TUSB_DESC_INTERFACE_ASSOCIATION = TUSB_DESC_INTERFACE := by decide
  have hnlt : ¬ drv_len < sizeof_tusb_desc_interface_t := by
    simp only [sizeof_tusb_desc_interface_t]; omega
  rw [parse_loop]
  simp only [hp, if_true, ht, hne, if_false, ne_eq, not_true_eq_false,
    span_to_end desc_end p (Nat.le_of_lt hp) hend, hcount, hnlt]

theorem blocks_start_alt0 (mem : Nat → Nat) (pre : List itf_block) (p : Nat)
    (hpre : ∀ b ∈ pre, is_other_block b)
    (hmem : holds mem p (pre.map itf_block.bytes).flatten)
    (hnext : tu_desc_type mem (p + (pre.map itf_block.bytes).flatten.length)
        = TUSB_DESC_INTERFACE ∧
      bAlternateSetting mem (p + (pre.map itf_block.bytes).flatten.length) = 0) :
    tu_desc_type mem p = TUSB_DESC_INTERFACE ∧ bAlternateSetting mem p = 0 := by
  cases pre with
  | nil => simpa using hnext
  | cons b bs =>
    obtain ⟨⟨h9, _, h1, h3⟩, _, _⟩ := hpre b (List.mem_cons_self _ _)
    simp only [List.map_cons, List.flatten_cons, itf_block.bytes, List.append_assoc] at hmem
    obtain ⟨hmh, _⟩ := (holds_append mem p b.head _).mp hmem
    constructor
    · rw [← h1]; exact holds_rd mem p b.head hmh 1 (by omega)
    · rw [← h3]; exact holds_rd mem p b.head hmh 3 (by omega)

theorem parse_loop_skip (mem : Nat → Nat) (edpt_open : Nat → Nat → Bool)
    (dev_addr desc_end cfuel : Nat) (hend : desc_end < 65536) :
    ∀ (pre : List itf_block) (fuel p : Nat),
      (∀ b ∈ pre, is_other_block b) →
      (∀ b ∈ pre, b.subs.length < cfuel) →
      holds mem p (pre.map itf_block.bytes).flatten →
      p + (pre.map itf_block.bytes).flatten.length < desc_end →
      (tu_desc_type mem (p + (pre.map itf_block.bytes).flatten.length) = TUSB_DESC_INTERFACE ∧
        bAlternateSetting mem (p + (pre.map itf_block.bytes).flatten.length) = 0) →
      parse_loop mem edpt_open dev_addr desc_end cfuel (pre.length + fuel) p =
        parse_loop mem edpt_open dev_addr desc_end cfuel fuel
          (p + (pre.map itf_block.bytes).flatten.length) := by
  intro pre
  induction pre with
  | nil => intro fuel p _ _ _ _ _; simp
  | cons b bs ih =>
    intro fuel p hpre hfuel hmem hlt hnext
    obtain ⟨⟨h9, h0, h1, h3⟩, hcls, hsubs⟩ := hpre b (List.mem_cons_self _ _)
    have hL : ((b :: bs).map itf_block.bytes).flatten.length
        = (9 + b.subs.flatten.length) + (bs.map itf_block.bytes).flatten.length := by
      simp only [List.map_cons, List.flatten_cons, List.length_append, itf_block.bytes, h9]
    rw [hL, ← Nat.add_assoc p] at hlt hnext
    rw [hL, ← Nat.add_assoc p]
    simp only [List.map_cons, List.flatten_cons] at hmem
    obtain ⟨hmb, hmbs⟩ := (holds_append mem p b.bytes _).mp hmem
    have hbl : b.bytes.length = 9 + b.subs.flatten.length := by
      simp only [itf_block.bytes, List.length_append, h9]
    rw [hbl] at hmbs
    obtain ⟨hmh, _⟩ := (holds_append mem p b.head b.subs.flatten).mp hmb
    have ht : tu_desc_type mem p = TUSB_DESC_INTERFACE := by
      rw [← h1]; exact holds_rd mem p b.head hmh 1 (by omega)
    have hc : bInterfaceClass mem p = b.head.getD 5 0 := holds_rd mem p b.head hmh 5 (by omega)
    have hnext2 := blocks_start_alt0 mem bs (p + (9 + b.subs.flatten.length))
      (fun x hx => hpre x (List.mem_cons_of_mem _ hx)) hmbs hnext
    have hcount := count_block mem (desc_end - p) (by omega) b.head b.subs cfuel p h9 h0 hsubs hmb
      (hfuel b (List.mem_cons_self _ _))
      (Or.inr ⟨by omega, Or.inr (by rw [Nat.add_assoc]; exact hnext2)⟩)
    have hstep := parse_loop_itf mem edpt_open dev_addr desc_end cfuel (bs.length + fuel) p
      (9 + b.subs.flatten.length) (by omega) hend ht hcount (by omega)
    have hcls2 : ¬ bInterfaceClass mem p = TUSB_CLASS_VENDOR_SPECIFIC := by rw [hc]; exact hcls
    rw [if_neg hcls2] at hstep
    have hfl : (b :: bs).length + fuel = bs.length + fuel + 1 := by
      simp only [List.length_cons]; omega
    rw [hfl, hstep]
    exact ih fuel (p + (9 + b.subs.flatten.length))
      (fun x hx => hpre x (List.mem_cons_of_mem _ hx))
      (fun x hx => hfuel x (List.mem_cons_of_mem _ hx)) hmbs hlt hnext

theorem blocks_length_le (pre : List itf_block) (hpre : ∀ b ∈ pre, is_other_block b) :
    pre.length ≤ (pre.map itf_block.bytes).flatten.length ∧
    ∀ b ∈ pre, 2 * b.subs.length ≤ (pre.map itf_block.bytes).flatten.length := by
  induction pre with
  | nil => simp
  | cons b bs ih =>
    obtain ⟨⟨h9, _⟩, _, hsubs⟩ := hpre b (List.mem_cons_self _ _)
    obtain ⟨ih1, ih2⟩ := ih (fun x hx => hpre x (List.mem_cons_of_mem _ hx))
    have hb := length_flatten_ge b.subs hsubs
    have hL : ((b :: bs).map itf_block.bytes).flatten.length
        = (9 + b.subs.flatten.length) + (bs.map itf_block.bytes).flatten.length := by
      simp only [List.map_cons, List.flatten_cons, List.length_append, itf_block.bytes, h9]
    rw [hL]
    constructor
    · simp only [List.length_cons]; omega
    · intro x hx
      rcases List.mem_cons.mp hx with rfl | hx
      · omega
      · have := ih2 x hx; omega

theorem parse_loop_vendor (mem : Nat → Nat) (edpt_open : Nat → Nat → Bool)
    (dev_addr desc_end cfuel fuel pv : Nat) (vend cls : List Nat) (ins : List (List Nat))
    (out : List Nat) (rest : List (List Nat)) (post : List Nat)
    (hend : desc_end < 65536)
    (hmem : holds mem pv (vend ++ (cls ++ (ins.flatten ++ (out ++ (rest.flatten ++ post))))))
    (hde : desc_end = pv + 9 + cls.length + 7 * ins.length + 7 + rest.flatten.length + post.length)
    (hvend : is_vendor_head vend) (hcls : is_sub_descriptor cls)
    (hins : ∀ e ∈ ins, is_in_endpoint e) (hout : is_bulk_out_endpoint out)
    (hrest : ∀ d ∈ rest, is_sub_descriptor d) (hpost : is_boundary post)
    (hnum : ins.length < vend.getD 4 0)
    (hspan : 18 + 7 * vend.getD 4 0 ≤ 9 + cls.length + 7 * ins.length + 7 + rest.flatten.length)
    (hopen : edpt_open dev_addr (pv + 9 + cls.length + 7 * ins.length) = true)
    (hcf : desc_end ≤ cfuel) :
    parse_loop mem edpt_open dev_addr desc_end cfuel (fuel + 1) pv =
      some ⟨ret_u8.value (out.getD 2 0), [pv + 9 + cls.length + 7 * ins.length]⟩ := by
  obtain ⟨⟨hv9, hv0, hv1, hv3⟩, hv5⟩ := hvend
  obtain ⟨hoe, hodir, _⟩ := hout
  have ho7 := hoe.1
  have hinsE : ∀ e ∈ ins, is_endpoint e := fun e he => (hins e he).1
  have hinsL := flatten_endpoints_length ins hinsE
  -- the descriptors of the vendor interface, as one chain
  have hchain : (cls :: (ins ++ out :: rest)).flatten
      = cls ++ (ins.flatten ++ (out ++ rest.flatten)) := by
    simp only [List.flatten_cons, List.flatten_append]
  have hchainsub : ∀ d ∈ cls :: (ins ++ out :: rest), is_sub_descriptor d := by
    intro d hd
    rcases List.mem_cons.mp hd with rfl | hd
    · exact hcls
    · rcases List.mem_append.mp hd with hd | hd
      · exact endpoint_is_sub d (hinsE d hd)
      · rcases List.mem_cons.mp hd with rfl | hd
        · exact endpoint_is_sub d hoe
        · exact hrest d hd
  have hchainlen : (cls :: (ins ++ out :: rest)).flatten.length
      = cls.length + 7 * ins.length + 7 + rest.flatten.length := by
    rw [hchain]; simp only [List.length_append, hinsL, ho7]; omega
  -- the pieces of memory
  obtain ⟨mV, m3⟩ := (holds_append _ _ _ _).mp hmem
  obtain ⟨mC, m4⟩ := (holds_append _ _ _ _).mp m3
  obtain ⟨mI, m5⟩ := (holds_append _ _ _ _).mp m4
  obtain ⟨mO, m6⟩ := (holds_append _ _ _ _).mp m5
  obtain ⟨mR, mPost⟩ := (holds_append _ _ _ _).mp m6
  rw [hv9] at m3 mC m4 mI m5 mO m6 mR mPost
  rw [hinsL] at m5 mO m6 mR mPost
  rw [ho7] at m6 mR mPost
  have mIO : holds mem (pv + 9 + cls.length) (ins.flatten ++ out) :=
    (holds_append _ _ _ _).mpr ⟨mI, by rw [hinsL]; exact mO⟩
  have mChain : holds mem (pv + 9) (cls :: (ins ++ out :: rest)).flatten := by
    rw [hchain]
    refine (holds_append _ _ _ _).mpr ⟨mC, (holds_append _ _ _ _).mpr ⟨mI, ?_⟩⟩
    rw [hinsL]
    refine (holds_append _ _ _ _).mpr ⟨mO, ?_⟩
    rw [ho7]; exact mR
  have mVC : holds mem pv (vend ++ (cls :: (ins ++ out :: rest)).flatten) :=
    (holds_append _ _ _ _).mpr ⟨mV, by rw [hv9]; exact mChain⟩
  -- reads of the vendor interface descriptor
  have hr0 : rd mem pv = 9 := by rw [holds_rd0 mem pv vend mV (by omega), hv0]
  have ht : tu_desc_type mem pv = TUSB_DESC_INTERFACE := by
    rw [← hv1]; exact holds_rd mem pv vend mV 1 (by omega)
  have hn : bNumEndpoints mem pv = vend.getD 4 0 := holds_rd mem pv vend mV 4 (by omega)
  have hc : bInterfaceClass mem pv = TUSB_CLASS_VENDOR_SPECIFIC := by
    rw [← hv5]; exact holds_rd mem pv vend mV 5 (by omega)
  have hnb : vend.getD 4 0 < 256 := by
    rw [← hn]; exact Nat.mod_lt _ (by decide)
  have hrc : rd mem (pv + 9) = cls.length := by
    rw [holds_rd0 mem (pv + 9) cls mC (by have := hcls.1; omega), hcls.2.1]
  -- the span
  have hstop : 9 + (cls :: (ins ++ out :: rest)).flatten.length = desc_end - pv ∨
      (9 + (cls :: (ins ++ out :: rest)).flatten.length < desc_end - pv ∧
        (tu_desc_type mem (pv + 9 + (cls :: (ins ++ out :: rest)).flatten.length)
            = TUSB_DESC_INTERFACE_ASSOCIATION ∨
          (tu_desc_type mem (pv + 9 + (cls :: (ins ++ out :: rest)).flatten.length)
              = TUSB_DESC_INTERFACE ∧
            bAlternateSetting mem (pv + 9 + (cls :: (ins ++ out :: rest)).flatten.length) = 0))) := by
    rw [hchainlen]
    have hq : pv + 9 + (cls.length + 7 * ins.length + 7 + rest.flatten.length)
        = pv + 9 + cls.length + 7 * ins.length + 7 + rest.flatten.length := by omega
    rw [hq]
    rcases hpost with hp | ⟨hp4, hp⟩
    · left; subst hp; simp only [List.length_nil] at hde; omega
    · right
      refine ⟨by omega, ?_⟩
      have h1 : tu_desc_type mem (pv + 9 + cls.length + 7 * ins.length + 7 + rest.flatten.length)
          = post.getD 1 0 := holds_rd mem _ post mPost 1 (by omega)
      have h3 : bAlternateSetting mem
          (pv + 9 + cls.length + 7 * ins.length + 7 + rest.flatten.length)
          = post.getD 3 0 := holds_rd mem _ post mPost 3 (by omega)
      rw [h1, h3]; exact hp
  have hfuelc : (cls :: (ins ++ out :: rest)).length < cfuel := by
    have := length_flatten_ge _ hchainsub
    have := hcls.1
    omega
  have hcount := count_block mem (desc_end - pv) (by omega) vend (cls :: (ins ++ out :: rest))
    cfuel pv hv9 hv0 hchainsub mVC hfuelc hstop
  have hstep := parse_loop_itf mem edpt_open dev_addr desc_end cfuel fuel pv _ (by omega) hend ht
    hcount (by omega)
  rw [if_pos hc] at hstep
  rw [hstep, hchainlen]
  -- the endpoint search
  have hdrv : (sizeof_tusb_desc_interface_t + sizeof_tusb_hid_descriptor_hid_t +
      bNumEndpoints mem pv * sizeof_tusb_desc_endpoint_t) % 65536 = 18 + 7 * vend.getD 4 0 := by
    rw [hn]
    simp only [sizeof_tusb_desc_interface_t, sizeof_tusb_hid_descriptor_hid_t,
      sizeof_tusb_desc_endpoint_t]
    omega
  have hloop := open_bulk_loop_ins mem edpt_open dev_addr out hoe hodir ins (vend.getD 4 0)
    (pv + 9 + cls.length) hins hnum mIO (by rw [hinsL]; exact hopen)
  unfold open_bulk_endpoint
  simp only [hdrv]
  rw [if_neg (by omega), hn]
  simp only [tu_desc_next, hr0, hrc]
  rw [hloop, hinsL]

theorem holds_mem_of_list (l : List Nat) (h : ∀ b ∈ l, b < 256) : holds (mem_of_list l) 0 l := by
  intro i hi
  have hb : l.getD i 0 < 256 := by
    rw [List.getD_eq_getElem _ _ hi]
    exact h _ (List.getElem_mem _)
  simp only [rd, mem_of_list, Nat.zero_add]
  exact Nat.mod_eq_of_lt hb

/-- C2 (failing input): the declared total length is 34 and the class-specific
descriptor claims 200 bytes. Two memories that agree on every offset below 34
give two different endpoint addresses, read at offset 220, and the result is
an endpoint address although the layout extends past the declared length. -/
theorem parse_config_descriptor_reads_past_end :
    wTotalLength (mem_overrun 1) = 34 ∧
    (∀ i, i < 34 → mem_overrun 1 i = mem_overrun 2 i) ∧
    parse_config_descriptor (mem_overrun 1) (fun _ _ => true) 100 1
      = some ⟨ret_u8.value 1, [218]⟩ ∧
    parse_config_descriptor (mem_overrun 2) (fun _ _ => true) 100 1
      = some ⟨ret_u8.value 2, [218]⟩ ∧
    count_interface_total_len (mem_overrun 1) 100 9 1 25 = some 209 := by
  decide

theorem lookup_serial (reg : List dlo_device_t) (s : List Nat) (d : dlo_device_t)
    (h : dlo_device_lookup reg s = some d) : d.serial = s := by
  have := List.find?_some h
  simpa using this

theorem lookup_mem_serials (reg : List dlo_device_t) (s : List Nat) (d : dlo_device_t)
    (h : dlo_device_lookup reg s = some d) : s ∈ reg.map dlo_device_t.serial := by
  have hs := lookup_serial reg s d h
  have hm := List.mem_of_find?_eq_some h
  exact List.mem_map.mpr ⟨d, hm, hs⟩

theorem lookup_none_serials (reg : List dlo_device_t) (s : List Nat)
    (h : dlo_device_lookup reg s = none) : s ∉ reg.map dlo_device_t.serial := by
  intro hm
  obtain ⟨d, hd, hs⟩ := List.mem_map.mp hm
  have := List.find?_eq_none.mp h d hd
  simp [hs] at this

theorem store_length (f : dlo_device_t → dlo_device_t) (s : List Nat) (reg : List dlo_device_t) :
    (registry_store f s reg).length = reg.length := by
  induction reg with
  | nil => rfl
  | cons d ds ih =>
    simp only [registry_store]
    split <;> simp [ih]

theorem store_serials (f : dlo_device_t → dlo_device_t) (hf : ∀ d, (f d).serial = d.serial)
    (s : List Nat) (reg : List dlo_device_t) :
    (registry_store f s reg).map dlo_device_t.serial = reg.map dlo_device_t.serial := by
  induction reg with
  | nil => rfl
  | cons d ds ih =>
    simp only [registry_store]
    split <;> simp [ih, hf]

theorem store_lookup (f : dlo_device_t → dlo_device_t) (hf : ∀ d, (f d).serial = d.serial)
    (s : List Nat) (reg : List dlo_device_t) (d : dlo_device_t)
    (h : dlo_device_lookup reg s = some d) :
    dlo_device_lookup (registry_store f s reg) s = some (f d) := by
  induction reg with
  | nil => simp [dlo_device_lookup] at h
  | cons x xs ih =>
    simp only [registry_store]
    by_cases hx : x.serial = s
    · simp only [dlo_device_lookup, List.find?, hx, decide_True, if_true] at h ⊢
      injection h with h
      subst h
      simp [hf, hx]
    · have h2 : dlo_device_lookup xs s = some d := by
        simpa [dlo_device_lookup, List.find?, hx] using h
      simp only [hx, if_false]
      simpa [dlo_device_lookup, List.find?, hx] using ih h2

theorem store_lookup_other (f : dlo_device_t → dlo_device_t)
    (hf : ∀ d, (f d).serial = d.serial) (s t : List Nat) (hts : t ≠ s)
    (reg : List dlo_device_t) :
    dlo_device_lookup (registry_store f s reg) t = dlo_device_lookup reg t := by
  induction reg with
  | nil => rfl
  | cons x xs ih =>
    simp only [registry_store]
    by_cases hx : x.serial = s
    · have hst : ¬ s = t := fun h => hts h.symm
      simp [dlo_device_lookup, List.find?, hx, hst, hf]
    · simp only [hx, if_false]
      by_cases hxt : x.serial = t
      · simp [dlo_device_lookup, List.find?, hxt]
      · have := ih
        simp only [dlo_device_lookup] at this
        simp [dlo_device_lookup, List.find?, hxt, this]

theorem records_with_unique (reg : List dlo_device_t) (s : List Nat) (d : dlo_device_t)
    (hnd : (reg.map dlo_device_t.serial).Nodup) (h : dlo_device_lookup reg s = some d) :
    records_with reg s = [d] := by
  induction reg with
  | nil => simp [dlo_device_lookup] at h
  | cons x xs ih =>
    simp only [List.map_cons, List.nodup_cons] at hnd
    by_cases hx : x.serial = s
    · have hd : x = d := by
        simpa [dlo_device_lookup, List.find?, hx] using h
      subst hd
      have hnil : xs.filter (fun d => decide (d.serial = s)) = [] := by
        rw [List.filter_eq_nil_iff]
        intro y hy hys
        apply hnd.1
        rw [hx]
        exact List.mem_map.mpr ⟨y, hy, by simpa using hys⟩
      simp [records_with, List.filter, hx, hnil]
    · have h2 : dlo_device_lookup xs s = some d := by
        simpa [dlo_device_lookup, List.find?, hx] using h
      have := ih hnd.2 h2
      simp only [records_with] at this
      simp [records_with, List.filter, hx, this]

/-- The second half of the rebinding: identification of a device whose serial
is already in the registry. -/
theorem check_device_known (code : dlo_devtype_t → Nat) (env : check_env)
    (reg : List dlo_device_t) (daddr : Nat) (s : List Nat) (d : dlo_device_t)
    (c : dlo_usb_dev_t)
    (hv : env.VID = VENDORID_DISPLAYLINK) (hc : env.control_ok = true)
    (hf : (tuh_descriptor_get_serial_string_sync_utf8 env.fetched).1 = XFER_RESULT_SUCCESS)
    (hs : c_string (tuh_descriptor_get_serial_string_sync_utf8 env.fetched).2 = s)
    (hd : dlo_device_lookup reg s = some d) (hcn : d.cnct = some c) :
    dlo_check_device code env reg daddr =
      run.done ⟨dlo_retcode_t.dlo_ok,
        registry_store (fun x => { x with cnct := some { c with udev := daddr } }) s reg,
        [check_call.control_xfer (type_query daddr),
          check_call.get_serial_string daddr 0x409 255]⟩ := by
  unfold dlo_check_device
  simp only [hv, ne_eq, not_true_eq_false, if_false, hc, hf, hs, hd, hcn]

/-- The first half of the rebinding: after a successful identification the
registry holds a record for the serial string, that record has a Connection
bound to the bus address, and no serial string occurs twice. -/
theorem check_device_registers (code : dlo_devtype_t → Nat) (env : check_env)
    (reg : List dlo_device_t) (daddr : Nat) (s : List Nat) (r : check_result)
    (hinv : (reg.map dlo_device_t.serial).Nodup)
    (hv : env.VID = VENDORID_DISPLAYLINK) (hc : env.control_ok = true)
    (hf : (tuh_descriptor_get_serial_string_sync_utf8 env.fetched).1 = XFER_RESULT_SUCCESS)
    (hs : c_string (tuh_descriptor_get_serial_string_sync_utf8 env.fetched).2 = s)
    (h : dlo_check_device code env reg daddr = run.done r)
    (hok : r.err = dlo_retcode_t.dlo_ok) :
    ∃ d c, dlo_device_lookup r.registry s = some d ∧ d.cnct = some c ∧ c.udev = daddr ∧
      (r.registry.map dlo_device_t.serial).Nodup := by
  unfold dlo_check_device at h
  simp only [hv, ne_eq, not_true_eq_false, if_false, hc, hf, hs] at h
  cases hl : dlo_device_lookup reg s with
  | some dev =>
    cases hcn : dev.cnct with
    | none => simp [hl, hcn] at h
    | some c =>
      simp only [hl, hcn, run.done.injEq] at h
      subst h
      refine ⟨_, { c with udev := daddr },
        store_lookup (fun x => { x with cnct := some { c with udev := daddr } })
          (fun _ => rfl) s reg dev hl, rfl, rfl, ?_⟩
      simp only
      rw [store_serials (fun x => { x with cnct := some { c with udev := daddr } })
        (fun _ => rfl)]
      exact hinv
  | none =>
    simp only [hl] at h
    cases hn : env.new_device_ok with
    | false =>
      simp only [hn, Bool.false_eq_true, not_false_eq_true, if_true, run.done.injEq] at h
      subst h
      simp at hok
    | true =>
      cases ha : env.cnct_alloc_ok with
      | false =>
        simp only [hn, ha, Bool.false_eq_true, not_true_eq_false, not_false_eq_true, if_true,
          if_false, run.done.injEq] at h
        subst h
        simp at hok
      | true =>
        simp only [hn, ha, not_true_eq_false, if_false, run.done.injEq] at h
        subst h
        refine ⟨{ (dlo_new_device reg (classify code (env.buf3 % 256)) s).1 with
            cnct := some ⟨daddr, ret_u8.value 0⟩ }, ⟨daddr, ret_u8.value 0⟩, ?_, rfl, rfl, ?_⟩
        · simp [dlo_device_lookup, dlo_new_device, List.find?]
        · simp only [List.map_cons, dlo_new_device]
          exact List.nodup_cons.mpr ⟨lookup_none_serials reg s hl, hinv⟩

/-- C7: two successful identifications with the same decoded serial string,
the second on the registry the first one left. The first leaves a record for
the serial with a Connection bound to `a1`. The second returns `dlo_ok`,
creates no record (same length, same serial strings in the same order) and
leaves the records of other serials as they were; afterwards the registry
holds exactly one record for the serial, the old one with only the bus address
of its Connection changed to `a2`: type, serial, claimed flag, buffer, cursor,
buffer end, timeout and endpoint are unchanged. The registry is the list of
records, with no serial string occurring twice before the first call. -/
theorem dlo_check_device_rebinds (code : dlo_devtype_t → Nat) (env1 env2 : check_env)
    (reg0 : List dlo_device_t) (a1 a2 : Nat) (s : List Nat) (r1 : check_result)
    (hinv : (reg0.map dlo_device_t.serial).Nodup)
    (hv1 : env1.VID = VENDORID_DISPLAYLINK) (hc1 : env1.control_ok = true)
    (hf1 : (tuh_descriptor_get_serial_string_sync_utf8 env1.fetched).1 = XFER_RESULT_SUCCESS)
    (hs1 : c_string (tuh_descriptor_get_serial_string_sync_utf8 env1.fetched).2 = s)
    (h1 : dlo_check_device code env1 reg0 a1 = run.done r1)
    (hok1 : r1.err = dlo_retcode_t.dlo_ok)
    (hv2 : env2.VID = VENDORID_DISPLAYLINK) (hc2 : env2.control_ok = true)
    (hf2 : (tuh_descriptor_get_serial_string_sync_utf8 env2.fetched).1 = XFER_RESULT_SUCCESS)
    (hs2 : c_string (tuh_descriptor_get_serial_string_sync_utf8 env2.fetched).2 = s) :
    ∃ d1 c1 r2,
      dlo_device_lookup r1.registry s = some d1 ∧ d1.cnct = some c1 ∧ c1.udev = a1 ∧
      dlo_check_device code env2 r1.registry a2 = run.done r2 ∧
      r2.err = dlo_retcode_t.dlo_ok ∧
      r2.registry.length = r1.registry.length ∧
      r2.registry.map dlo_device_t.serial = r1.registry.map dlo_device_t.serial ∧
      records_with r2.registry s =
        [⟨d1.type, d1.serial, d1.claimed, d1.buffer, d1.bufptr, d1.bufend, d1.timeout,
          some ⟨a2, c1.uhand⟩⟩] ∧
      (∀ t, t ≠ s → dlo_device_lookup r2.registry t = dlo_device_lookup r1.registry t) := by
  obtain ⟨d1, c1, hl1, hcn1, hu1, hnd1⟩ :=
    check_device_registers code env1 reg0 a1 s r1 hinv hv1 hc1 hf1 hs1 h1 hok1
  have h2 := check_device_known code env2 r1.registry a2 s d1 c1 hv2 hc2 hf2 hs2 hl1 hcn1
  have hser := store_serials (fun x => { x with cnct := some { c1 with udev := a2 } })
    (fun _ => rfl) s r1.registry
  refine ⟨d1, c1, _, hl1, hcn1, hu1, h2, rfl, store_length _ _ _, hser, ?_, ?_⟩
  · exact records_with_unique _ s _ (by rw [hser]; exact hnd1)
      (store_lookup (fun x => { x with cnct := some { c1 with udev := a2 } })
        (fun _ => rfl) s r1.registry d1 hl1)
  · intro t ht
    exact store_lookup_other (fun x => { x with cnct := some { c1 with udev := a2 } })
      (fun _ => rfl) s t ht r1.registry

/-- C7 (witness): the serial "AB" is identified at bus address 1 and then at
bus address 2, starting from an empty registry. -/
theorem dlo_check_device_rebinds_witness :
    (([] : List dlo_device_t).map dlo_device_t.serial).Nodup ∧
    env_displaylink.VID = VENDORID_DISPLAYLINK ∧ env_displaylink.control_ok = true ∧
    (tuh_descriptor_get_serial_string_sync_utf8 env_displaylink.fetched).1
      = XFER_RESULT_SUCCESS ∧
    c_string (tuh_descriptor_get_serial_string_sync_utf8 env_displaylink.fetched).2 = [0x42] ∧
    dlo_check_device (fun _ => 0) env_displaylink [] 1 =
      run.done ⟨dlo_retcode_t.dlo_ok,
        [⟨dlo_devtype_t.dlo_dev_unknown, [0x42], false, 0, 0, 0, 0,
          some ⟨1, ret_u8.value 0⟩⟩],
        [check_call.control_xfer (type_query 1), check_call.get_serial_string 1 0x409 255]⟩ ∧
    ∃ d1 c1 r2,
      dlo_device_lookup [⟨dlo_devtype_t.dlo_dev_unknown, [0x42], false, 0, 0, 0, 0,
          some ⟨1, ret_u8.value 0⟩⟩] [0x42] = some d1 ∧
      d1.cnct = some c1 ∧ c1.udev = 1 ∧
      dlo_check_device (fun _ => 0) env_displaylink
        [⟨dlo_devtype_t.dlo_dev_unknown, [0x42], false, 0, 0, 0, 0,
          some ⟨1, ret_u8.value 0⟩⟩] 2 = run.done r2 ∧
      r2.err = dlo_retcode_t.dlo_ok ∧
      r2.registry.length = 1 ∧
      r2.registry.map dlo_device_t.serial = [[0x42]] ∧
      records_with r2.registry [0x42] =
        [⟨d1.type, d1.serial, d1.claimed, d1.buffer, d1.bufptr, d1.bufend, d1.timeout,
          some ⟨2, c1.uhand⟩⟩] ∧
      (∀ t, t ≠ [0x42] → dlo_device_lookup r2.registry t
        = dlo_device_lookup [⟨dlo_devtype_t.dlo_dev_unknown, [0x42], false, 0, 0, 0, 0,
          some ⟨1, ret_u8.value 0⟩⟩] t) :=
  ⟨by decide, by decide, by decide, by decide, by decide, by decide,
    dlo_check_device_rebinds (fun _ => 0) env_displaylink env_displaylink [] 1 2 [0x42]
      ⟨dlo_retcode_t.dlo_ok,
        [⟨dlo_devtype_t.dlo_dev_unknown, [0x42], false, 0, 0, 0, 0,
          some ⟨1, ret_u8.value 0⟩⟩],
        [check_call.control_xfer (type_query 1), check_call.get_serial_string 1 0x409 255]⟩
      (by decide) (by decide) (by decide) (by decide) (by decide) (by decide) rfl
      (by decide) (by decide) (by decide) (by decide)⟩

/-- C11 (failing inputs): with no vendor-specific interface the parser returns
0. With a vendor interface that has no OUT endpoint, with a computed span of 0
(smaller than the 9-byte interface descriptor), and with a top-level
descriptor that is not an interface, it leaves through `return;` or the end
of `open_bulk_endpoint` without a value, not with the value 0. In none of the
four runs is an endpoint handed to `tuh_edpt_open`. -/
theorem parse_config_descriptor_no_sentinel :
    parse_config_descriptor (mem_of_list cfg_hid_only) (fun _ _ => true) 100 1
      = some ⟨ret_u8.value 0, []⟩ ∧
    parse_config_descriptor (mem_of_list cfg_no_out) (fun _ _ => true) 100 1
      = some ⟨ret_u8.no_value, []⟩ ∧
    count_interface_total_len (mem_of_list cfg_empty_assoc) 100 17 0 9 = some 0 ∧
    parse_config_descriptor (mem_of_list cfg_empty_assoc) (fun _ _ => true) 100 1
      = some ⟨ret_u8.no_value, []⟩ ∧
    parse_config_descriptor (mem_of_list cfg_not_itf) (fun _ _ => true) 100 1
      = some ⟨ret_u8.no_value, []⟩ := by
  decide

/-- C12 (failing input): the vendor interface has an interrupt-OUT endpoint
(address `0x02`, `bmAttributes = 3`, offset 27) before its bulk-OUT endpoint
(address `0x01`, `bmAttributes = 2`, offset 34). The parser returns the
non-zero address `0x02` of the interrupt endpoint: the transfer type is never
looked at. -/
theorem parse_config_descriptor_takes_interrupt_out :
    wTotalLength (mem_of_list cfg_interrupt_first) = cfg_interrupt_first.length ∧
    parse_config_descriptor (mem_of_list cfg_interrupt_first) (fun _ _ => true) 100 1
      = some ⟨ret_u8.value 0x02, [27]⟩ ∧
    bEndpointAddress (mem_of_list cfg_interrupt_first) 27 = 0x02 ∧
    bmAttributes (mem_of_list cfg_interrupt_first) 27 ≠ TUSB_XFER_BULK ∧
    bEndpointAddress (mem_of_list cfg_interrupt_first) 34 = 0x01 ∧
    bmAttributes (mem_of_list cfg_interrupt_first) 34 = TUSB_XFER_BULK := by
  decide

/-- C19 (failing inputs): with 25 bytes left before the declared end, the span
computed for the interface at offset 9 of `mem_overrun` is 209, because the
`bLength` 200 of its last sub-descriptor is added after the test
`len < max_len`; and with 1 byte left the span is already 9, because the
length of the interface descriptor is added before any test. -/
theorem count_interface_total_len_exceeds_max_len :
    count_interface_total_len (mem_overrun 1) 100 9 1 25 = some 209 ∧
    count_interface_total_len (mem_overrun 1) 100 9 1 1 = some 9 := by
  decide

/-- C14 (failing input): whenever the vendor identifier matches and
`tuh_control_xfer` reports failure for the type query, `dlo_check_device`
returns `dlo_ok`: `TBERR_GOTO` jumps to `error` with `err` holding the `false`
it just stored. No record is created and the serial string is not fetched. -/
theorem dlo_check_device_control_failure_ok (code : dlo_devtype_t → Nat) (env : check_env)
    (registry : List dlo_device_t) (daddr : Nat) :
    dlo_check_device code { env with VID := VENDORID_DISPLAYLINK, control_ok := false }
        registry daddr
      = run.done ⟨dlo_retcode_t.dlo_ok, registry, [check_call.control_xfer (type_query daddr)]⟩ := by
  simp [dlo_check_device, retcode_of_nat]

theorem read_edid_loop_complete (resp : Nat → Nat × Nat) (parse_edid : List Nat → dlo_retcode_t)
    (daddr : Nat) :
    ∀ n i edid reqs, (∀ j, i ≤ j → j < i + n → (resp j).1 % 256 = 0) →
      read_edid_loop resp parse_edid daddr n i edid reqs =
        ⟨parse_edid (edid ++ (List.range' i n).map (fun j => (resp j).2 % 256)),
          reqs ++ (List.range' i n).map (edid_request daddr),
          [edid ++ (List.range' i n).map (fun j => (resp j).2 % 256)]⟩ := by
  intro n
  induction n with
  | zero => intro i edid reqs _; simp [read_edid_loop]
  | succ n ih =>
    intro i edid reqs hz
    have hzi : (resp i).1 % 256 = 0 := hz i (Nat.le_refl _) (by omega)
    rw [read_edid_loop]
    simp only [hzi, ne_eq, not_true_eq_false, if_false]
    rw [ih (i + 1) _ _ (fun j h1 h2 => hz j (by omega) (by omega))]
    simp only [List.range'_succ, List.map_cons, List.append_assoc, List.singleton_append]

/-- C13 (counterexample): every status byte is zero, but `dlo_malloc` of the
EDID block fails: `read_edid` returns `dlo_err_memory`, issues no control
request and does not call `dlo_mode_parse_edid`. -/
theorem read_edid_complete_no_memory :
    (∀ i, i < 128 → (resp_all_ok i).1 % 256 = 0) ∧
    read_edid false resp_all_ok (fun _ => dlo_retcode_t.dlo_ok) dev_example =
      run.done ⟨dlo_retcode_t.dlo_err_memory, [], []⟩ := by
  decide

/-- C13 (amended): when `dlo_malloc` of the EDID block succeeds and all 128
reads return a zero status byte, `read_edid` issues exactly the 128 requests
of rounds `0..127` in order (vendor, device, IN, `bRequest` `0x02`, `wIndex`
`0xA1`, `wValue = i << 8`, `wLength` 2, to the bus address of the record),
calls `dlo_mode_parse_edid` exactly once, with the 128-byte block whose byte
`i` is the data byte of response `i`, and returns the result of that call.
When that `dlo_malloc` fails, `read_edid` returns `dlo_err_memory`, issues no
request and does not call `dlo_mode_parse_edid`, for every device answer,
collaborator and record. -/
theorem read_edid_complete (resp : Nat → Nat × Nat) (parse_edid : List Nat → dlo_retcode_t)
    (dev : dlo_device_t) (cnct : dlo_usb_dev_t) (hcnct : dev.cnct = some cnct)
    (hzero : ∀ i, i < 128 → (resp i).1 % 256 = 0) :
    read_edid true resp parse_edid dev =
      run.done ⟨parse_edid ((List.range 128).map (fun i => (resp i).2 % 256)),
        (List.range 128).map (edid_request cnct.udev),
        [(List.range 128).map (fun i => (resp i).2 % 256)]⟩ ∧
    ((List.range 128).map (edid_request cnct.udev)).length = 128 ∧
    ((List.range 128).map (fun i => (resp i).2 % 256)).length = 128 ∧
    (∀ i, i < 128 → edid_request cnct.udev i =
      ⟨cnct.udev, TUSB_REQ_RCPT_DEVICE, TUSB_REQ_TYPE_VENDOR, TUSB_DIR_IN, 0x02, i <<< 8, 0xA1, 2⟩) ∧
    (∀ (r : Nat → Nat × Nat) (p : List Nat → dlo_retcode_t) (d : dlo_device_t),
      read_edid false r p d = run.done ⟨dlo_retcode_t.dlo_err_memory, [], []⟩) := by
  have h := read_edid_loop_complete resp parse_edid cnct.udev EDID_STRUCT_SZ 0 [] []
    (fun j _ hj => hzero j (by simpa [EDID_STRUCT_SZ] using hj))
  refine ⟨?_, by simp, by simp, ?_, fun r p d => read_edid_malloc_fails r p d⟩
  · simp only [List.nil_append, EDID_STRUCT_SZ] at h
    simp only [read_edid, hcnct, List.range_eq_range', EDID_STRUCT_SZ, h]
    simp
  · intro i hi
    have : (i <<< 8) % 65536 = i <<< 8 := by
      rw [Nat.shiftLeft_eq]
      apply Nat.mod_eq_of_lt
      omega
    simp only [edid_request, this, NR_USB_REQUEST_I2C_SUB_IO]

/-- C13 (witness): a device that answers every read with status 0. -/
theorem read_edid_complete_witness :
    dev_example.cnct = some cnct_example ∧ (∀ i, i < 128 → (resp_all_ok i).1 % 256 = 0) ∧
    read_edid true resp_all_ok (fun _ => dlo_retcode_t.other 7) dev_example =
      run.done ⟨(fun _ => dlo_retcode_t.other 7)
          ((List.range 128).map (fun i => (resp_all_ok i).2 % 256)),
        (List.range 128).map (edid_request cnct_example.udev),
        [(List.range 128).map (fun i => (resp_all_ok i).2 % 256)]⟩ ∧
    ((List.range 128).map (edid_request cnct_example.udev)).length = 128 ∧
    ((List.range 128).map (fun i => (resp_all_ok i).2 % 256)).length = 128 ∧
    (∀ i, i < 128 → edid_request cnct_example.udev i =
      ⟨cnct_example.udev, TUSB_REQ_RCPT_DEVICE, TUSB_REQ_TYPE_VENDOR, TUSB_DIR_IN, 0x02,
        i <<< 8, 0xA1, 2⟩) ∧
    (∀ (r : Nat → Nat × Nat) (p : List Nat → dlo_retcode_t) (d : dlo_device_t),
      read_edid false r p d = run.done ⟨dlo_retcode_t.dlo_err_memory, [], []⟩) :=
  ⟨rfl, by decide,
    read_edid_complete resp_all_ok (fun _ => dlo_retcode_t.other 7) dev_example cnct_example rfl
      (by decide)⟩

/-! ## Device session -/

/-- C17: on a claimed record (with its Connection, and with cursor and end
null when the buffer pointer is null) `dlo_usb_close` sets `claimed` to false
and `buffer`, `bufptr`, `bufend` to null and releases the endpoint of the
Connection once; on an unclaimed record it changes nothing and releases
nothing. It returns `dlo_ok` in both cases; a second close leaves the record
as the first left it and releases nothing; and `dlo_usb_write` after the close
returns `dlo_err_unclaimed` without submitting a transfer. -/
theorem dlo_usb_close_releases_once (eng : bulk_engine) (B fuel : Nat) (dev : dlo_device_t)
    (cnct : dlo_usb_dev_t) (hcnct : dev.claimed = true → dev.cnct = some cnct)
    (hbuf : dev.buffer = 0 → dev.bufptr = 0 ∧ dev.bufend = 0) :
    ∃ r, dlo_usb_close dev = run.done r ∧ r.err = dlo_retcode_t.dlo_ok ∧
      (dev.claimed = true →
        r.dev = ⟨dev.type, dev.serial, false, 0, 0, 0, dev.timeout, dev.cnct⟩ ∧
        r.releases = [(cnct.udev, cnct.uhand)]) ∧
      (dev.claimed = false → r.dev = dev ∧ r.releases = []) ∧
      dlo_usb_close r.dev = run.done ⟨dlo_retcode_t.dlo_ok, r.dev, []⟩ ∧
      dlo_usb_write eng B fuel r.dev =
        run.done ({ r.dev with bufptr := r.dev.buffer },
          ⟨dlo_retcode_t.dlo_err_unclaimed, [], 0⟩) := by
  cases hcl : dev.claimed with
  | false =>
    refine ⟨⟨dlo_retcode_t.dlo_ok, dev, []⟩, by simp [dlo_usb_close, hcl], rfl, by simp,
      fun _ => ⟨rfl, rfl⟩, by simp [dlo_usb_close, hcl], ?_⟩
    simp [dlo_usb_write, dlo_usb_write_buf, hcl]
  | true =>
    have hc := hcnct hcl
    by_cases hb : dev.buffer = 0
    · obtain ⟨hp, he⟩ := hbuf hb
      refine ⟨⟨dlo_retcode_t.dlo_ok,
        ⟨dev.type, dev.serial, false, 0, 0, 0, dev.timeout, dev.cnct⟩,
        [(cnct.udev, cnct.uhand)]⟩, ?_, rfl, fun _ => ⟨rfl, rfl⟩, by simp,
        by simp [dlo_usb_close], by simp [dlo_usb_write, dlo_usb_write_buf]⟩
      simp only [dlo_usb_close, hcl, hb, hc, ne_eq, not_true_eq_false, if_false, if_true]
      congr 2
      cases dev
      simp_all
    · refine ⟨⟨dlo_retcode_t.dlo_ok,
        ⟨dev.type, dev.serial, false, 0, 0, 0, dev.timeout, dev.cnct⟩,
        [(cnct.udev, cnct.uhand)]⟩, ?_, rfl, fun _ => ⟨rfl, rfl⟩, by simp,
        by simp [dlo_usb_close], by simp [dlo_usb_write, dlo_usb_write_buf]⟩
      simp only [dlo_usb_close, hcl, hb, hc, ne_eq, not_false_eq_true, if_true]

/-- C17 (witness): the claimed example record. -/
theorem dlo_usb_close_releases_once_witness :
    (dev_example.claimed = true → dev_example.cnct = some cnct_example) ∧
    (dev_example.buffer = 0 → dev_example.bufptr = 0 ∧ dev_example.bufend = 0) ∧
    ∃ r, dlo_usb_close dev_example = run.done r ∧ r.err = dlo_retcode_t.dlo_ok ∧
      (dev_example.claimed = true →
        r.dev = ⟨dev_example.type, dev_example.serial, false, 0, 0, 0, dev_example.timeout,
          dev_example.cnct⟩ ∧
        r.releases = [(cnct_example.udev, cnct_example.uhand)]) ∧
      (dev_example.claimed = false → r.dev = dev_example ∧ r.releases = []) ∧
      dlo_usb_close r.dev = run.done ⟨dlo_retcode_t.dlo_ok, r.dev, []⟩ ∧
      dlo_usb_write engine_idle 2 4 r.dev =
        run.done ({ r.dev with bufptr := r.dev.buffer },
          ⟨dlo_retcode_t.dlo_err_unclaimed, [], 0⟩) :=
  ⟨by decide, by decide,
    dlo_usb_close_releases_once engine_idle 2 4 dev_example cnct_example (by decide) (by decide)⟩

/-- C16 (failing input): the unclaimed record `dev_fresh` has no buffer and
`dlo_malloc(BUF_SIZE)` returns `NULL`. `dlo_usb_open` returns
`dlo_err_memory`, but the record it leaves is claimed and the endpoint of its
Connection has changed from 0 to `0x01`; a `dlo_usb_write` on that record
returns `dlo_ok`, not `dlo_err_unclaimed`. -/
theorem dlo_usb_open_no_rollback :
    dev_fresh.claimed = false ∧
    dlo_usb_open (open_env_sample 0) 65536 66 dev_fresh =
      run.done ⟨dlo_retcode_t.dlo_err_memory,
        ⟨dlo_devtype_t.dlo_dev_alex, [0x42], true, 0, 0, 0, 0, some ⟨1, ret_u8.value 0x01⟩⟩,
        [59], none⟩ ∧
    dlo_usb_write engine_idle 65536 66
        ⟨dlo_devtype_t.dlo_dev_alex, [0x42], true, 0, 0, 0, 0, some ⟨1, ret_u8.value 0x01⟩⟩ =
      run.done (⟨dlo_devtype_t.dlo_dev_alex, [0x42], true, 0, 0, 0, 0,
          some ⟨1, ret_u8.value 0x01⟩⟩,
        ⟨dlo_retcode_t.dlo_ok, [], 0⟩) := by
  decide

/-- What `dlo_usb_open` does once the parser has come back: for every record
with a Connection, when the record has a buffer or `dlo_malloc(BUF_SIZE)`
succeeds, and the parser returns on the fetched configuration descriptor (or
the fetch fails), `dlo_usb_open` returns `dlo_ok` whatever `read_edid` does. On return the record is claimed; a new buffer has `bufptr` at its start
and `bufend` `BUF_SIZE` bytes later, an existing buffer keeps `buffer`,
`bufptr` and `bufend`; the timeout is 10000 if it was 0 and unchanged
otherwise; type, serial and bus address are unchanged; and `read_edid` has
been run on the record. -/
theorem dlo_usb_open_claims (env : open_env) (B fuel : Nat) (dev : dlo_device_t)
    (cnct : dlo_usb_dev_t) (hcnct : dev.cnct = some cnct)
    (halloc : dev.buffer ≠ 0 ∨ env.buffer_alloc ≠ 0)
    (hparse : XFER_RESULT_SUCCESS = env.cfg.1 →
      parse_config_descriptor env.cfg.2 env.edpt_open fuel cnct.udev ≠ none) :
    ∃ r e, dlo_usb_open env B fuel dev = run.done r ∧ r.err = dlo_retcode_t.dlo_ok ∧
      r.dev.claimed = true ∧
      (dev.buffer = 0 → r.dev.buffer = env.buffer_alloc ∧ r.dev.bufptr = env.buffer_alloc ∧
        r.dev.bufend = env.buffer_alloc + B) ∧
      (dev.buffer ≠ 0 → r.dev.buffer = dev.buffer ∧ r.dev.bufptr = dev.bufptr ∧
        r.dev.bufend = dev.bufend) ∧
      r.dev.timeout = (if dev.timeout = 0 then 10000 else dev.timeout) ∧
      r.dev.type = dev.type ∧ r.dev.serial = dev.serial ∧
      (∃ c, r.dev.cnct = some c ∧ c.udev = cnct.udev) ∧
      r.edid = some e ∧
      read_edid env.edid_malloc_ok env.edid_resp env.parse_edid r.dev = run.done e := by
  -- the endpoint search comes back with some result `p`
  obtain ⟨p, hp⟩ : ∃ p, (if XFER_RESULT_SUCCESS = env.cfg.1 then
      parse_config_descriptor env.cfg.2 env.edpt_open fuel cnct.udev
      else some ⟨cnct.uhand, []⟩) = some p := by
    by_cases hs : XFER_RESULT_SUCCESS = env.cfg.1
    · rw [if_pos hs]
      exact Option.ne_none_iff_exists'.mp (hparse hs)
    · rw [if_neg hs]; exact ⟨_, rfl⟩
  have hnot : ¬ (dev.buffer = 0 ∧ env.buffer_alloc = 0) := by
    rintro ⟨h1, h2⟩
    rcases halloc with h | h
    · exact h h1
    · exact h h2
  -- the record after the buffer and timeout steps
  obtain ⟨d3, hd3, hcl, hnew, hold, hto, hty, hse, hcn⟩ : ∃ d3 : dlo_device_t,
      d3 = (if (if dev.buffer = 0 then
                  ({ dev with cnct := some { cnct with uhand := p.ret }, claimed := true,
                              buffer := env.buffer_alloc, bufptr := env.buffer_alloc,
                              bufend := env.buffer_alloc + B } : dlo_device_t)
                else { dev with cnct := some { cnct with uhand := p.ret },
                                claimed := true }).timeout = 0 then
              { (if dev.buffer = 0 then
                  ({ dev with cnct := some { cnct with uhand := p.ret }, claimed := true,
                              buffer := env.buffer_alloc, bufptr := env.buffer_alloc,
                              bufend := env.buffer_alloc + B } : dlo_device_t)
                else { dev with cnct := some { cnct with uhand := p.ret },
                                claimed := true }) with timeout := WRITE_TIMEOUT }
            else (if dev.buffer = 0 then
                  ({ dev with cnct := some { cnct with uhand := p.ret }, claimed := true,
                              buffer := env.buffer_alloc, bufptr := env.buffer_alloc,
                              bufend := env.buffer_alloc + B } : dlo_device_t)
                else { dev with cnct := some { cnct with uhand := p.ret },
                                claimed := true })) ∧
      d3.claimed = true ∧
      (dev.buffer = 0 → d3.buffer = env.buffer_alloc ∧ d3.bufptr = env.buffer_alloc ∧
        d3.bufend = env.buffer_alloc + B) ∧
      (dev.buffer ≠ 0 → d3.buffer = dev.buffer ∧ d3.bufptr = dev.bufptr ∧
        d3.bufend = dev.bufend) ∧
      d3.timeout = (if dev.timeout = 0 then 10000 else dev.timeout) ∧
      d3.type = dev.type ∧ d3.serial = dev.serial ∧
      d3.cnct = some { cnct with uhand := p.ret } := by
    refine ⟨_, rfl, ?_⟩
    by_cases hb : dev.buffer = 0 <;> by_cases ht : dev.timeout = 0 <;>
      simp [hb, ht, WRITE_TIMEOUT]
  -- `read_edid` returns on a record with a Connection
  obtain ⟨e, he⟩ : ∃ e, read_edid env.edid_malloc_ok env.edid_resp env.parse_edid d3
      = run.done e := by
    unfold read_edid
    rw [hcn]
    by_cases hm : env.edid_malloc_ok = true
    · simp [hm]
    · simp [hm]
  refine ⟨⟨dlo_retcode_t.dlo_ok, d3, p.edpt_open_calls, some e⟩, e, ?_, rfl, hcl, hnew, hold,
    hto, hty, hse, ⟨_, hcn, rfl⟩, rfl, he⟩
  unfold dlo_usb_open
  simp only [hcnct, hp, hnot, if_false, ← hd3, he]

/-- The fresh record, the sample configuration, a successful `dlo_malloc` at
`0x2000`, `BUF_SIZE = 65536`, and an EDID read that fails at once. -/
theorem dlo_usb_open_claims_witness :
    dev_fresh.cnct = some ⟨1, ret_u8.value 0⟩ ∧
    (dev_fresh.buffer ≠ 0 ∨ (open_env_sample 0x2000).buffer_alloc ≠ 0) ∧
    (XFER_RESULT_SUCCESS = (open_env_sample 0x2000).cfg.1 →
      parse_config_descriptor (open_env_sample 0x2000).cfg.2 (open_env_sample 0x2000).edpt_open
        66 1 ≠ none) ∧
    ∃ r e, dlo_usb_open (open_env_sample 0x2000) 65536 66 dev_fresh = run.done r ∧
      r.err = dlo_retcode_t.dlo_ok ∧ r.dev.claimed = true ∧
      (dev_fresh.buffer = 0 → r.dev.buffer = 0x2000 ∧ r.dev.bufptr = 0x2000 ∧
        r.dev.bufend = 0x2000 + 65536) ∧
      (dev_fresh.buffer ≠ 0 → r.dev.buffer = dev_fresh.buffer ∧ r.dev.bufptr = dev_fresh.bufptr ∧
        r.dev.bufend = dev_fresh.bufend) ∧
      r.dev.timeout = (if dev_fresh.timeout = 0 then 10000 else dev_fresh.timeout) ∧
      r.dev.type = dev_fresh.type ∧ r.dev.serial = dev_fresh.serial ∧
      (∃ c, r.dev.cnct = some c ∧ c.udev = 1) ∧
      r.edid = some e ∧
      read_edid (open_env_sample 0x2000).edid_malloc_ok (open_env_sample 0x2000).edid_resp
        (open_env_sample 0x2000).parse_edid r.dev = run.done e :=
  ⟨rfl, by decide, by decide,
    dlo_usb_open_claims (open_env_sample 0x2000) 65536 66 dev_fresh ⟨1, ret_u8.value 0⟩ rfl
      (by decide) (by decide)⟩

/-! ## Channel selector -/

/-- C18 (counterexample): for a buffer of `65536` bytes `dlo_usb_chan_sel`
issues its transfer with `wLength = 0`, not `65536`: `wLength` is a 16-bit
field. -/
theorem dlo_usb_chan_sel_wlength_wraps :
    dlo_usb_chan_sel dev_example (List.replicate 65536 1) 65536 =
      run.done ⟨dlo_retcode_t.dlo_ok,
        [(⟨1, TUSB_REQ_RCPT_DEVICE, TUSB_REQ_TYPE_VENDOR, TUSB_DIR_OUT, 0x12, 0, 0, 0⟩,
          List.replicate 65536 1)]⟩ := by
  rfl

/-- C18 (amended): on a record with a Connection, `dlo_usb_std_chan` issues
exactly one control transfer to the bus address of the record: vendor type,
device recipient, direction OUT, `bRequest` `0x12`, `wValue` 0, `wIndex` 0,
`wLength` 16, with the 16 bytes of `STD_CHANNEL` as payload; the payload has no
zero byte, so `strlen(STD_CHANNEL) == 16` holds. `dlo_usb_chan_sel` with a
buffer of any size `n > 0` issues exactly one such transfer carrying that
buffer with `wLength` `n mod 65536`, which is `n` for `n < 65536`; with size 0
it issues none. Both return `dlo_ok`. -/
theorem dlo_usb_chan_sel_request (dev : dlo_device_t) (cnct : dlo_usb_dev_t)
    (buf : List Nat) (n : Nat) (hcnct : dev.cnct = some cnct) (hn : 0 < n) :
    dlo_usb_std_chan dev =
      run.done ⟨dlo_retcode_t.dlo_ok,
        [(⟨cnct.udev, TUSB_REQ_RCPT_DEVICE, TUSB_REQ_TYPE_VENDOR, TUSB_DIR_OUT, 0x12, 0, 0, 16⟩,
          [0x57, 0xCD, 0xDC, 0xA7, 0x1C, 0x88, 0x5E, 0x15, 0x60, 0xFE, 0xC6, 0x97, 0x16, 0x3D,
            0x47, 0xF2])]⟩ ∧
    strlen STD_CHANNEL = 16 ∧ 0 ∉ STD_CHANNEL ∧
    dlo_usb_chan_sel dev buf n =
      run.done ⟨dlo_retcode_t.dlo_ok,
        [(⟨cnct.udev, TUSB_REQ_RCPT_DEVICE, TUSB_REQ_TYPE_VENDOR, TUSB_DIR_OUT, 0x12, 0, 0,
            n % 65536⟩, buf)]⟩ ∧
    (n < 65536 →
      dlo_usb_chan_sel dev buf n =
        run.done ⟨dlo_retcode_t.dlo_ok,
          [(⟨cnct.udev, TUSB_REQ_RCPT_DEVICE, TUSB_REQ_TYPE_VENDOR, TUSB_DIR_OUT, 0x12, 0, 0, n⟩,
            buf)]⟩) ∧
    dlo_usb_chan_sel dev buf 0 = run.done ⟨dlo_retcode_t.dlo_ok, []⟩ := by
  have hn0 : n ≠ 0 := by omega
  refine ⟨?_, by decide, by decide, ?_, ?_, ?_⟩
  · simp [dlo_usb_std_chan, dlo_usb_chan_sel, hcnct, DSIZEOF, STD_CHANNEL, NR_USB_REQUEST_CHANNEL]
  · simp [dlo_usb_chan_sel, hcnct, hn0, NR_USB_REQUEST_CHANNEL]
  · intro hn16
    simp [dlo_usb_chan_sel, hcnct, hn0, Nat.mod_eq_of_lt hn16, NR_USB_REQUEST_CHANNEL]
  · simp [dlo_usb_chan_sel]

/-- C18 (witness): the example record and a three-byte buffer. -/
theorem dlo_usb_chan_sel_request_witness :
    dev_example.cnct = some cnct_example ∧ 0 < 3 ∧
    dlo_usb_std_chan dev_example =
      run.done ⟨dlo_retcode_t.dlo_ok,
        [(⟨cnct_example.udev, TUSB_REQ_RCPT_DEVICE, TUSB_REQ_TYPE_VENDOR, TUSB_DIR_OUT, 0x12, 0,
            0, 16⟩,
          [0x57, 0xCD, 0xDC, 0xA7, 0x1C, 0x88, 0x5E, 0x15, 0x60, 0xFE, 0xC6, 0x97, 0x16, 0x3D,
            0x47, 0xF2])]⟩ ∧
    strlen STD_CHANNEL = 16 ∧ 0 ∉ STD_CHANNEL ∧
    dlo_usb_chan_sel dev_example [1, 2, 3] 3 =
      run.done ⟨dlo_retcode_t.dlo_ok,
        [(⟨cnct_example.udev, TUSB_REQ_RCPT_DEVICE, TUSB_REQ_TYPE_VENDOR, TUSB_DIR_OUT, 0x12, 0,
            0, 3 % 65536⟩, [1, 2, 3])]⟩ ∧
    (3 < 65536 →
      dlo_usb_chan_sel dev_example [1, 2, 3] 3 =
        run.done ⟨dlo_retcode_t.dlo_ok,
          [(⟨cnct_example.udev, TUSB_REQ_RCPT_DEVICE, TUSB_REQ_TYPE_VENDOR, TUSB_DIR_OUT, 0x12,
              0, 0, 3⟩, [1, 2, 3])]⟩) ∧
    dlo_usb_chan_sel dev_example [1, 2, 3] 0 = run.done ⟨dlo_retcode_t.dlo_ok, []⟩ :=
  ⟨rfl, by decide,
    dlo_usb_chan_sel_request dev_example cnct_example [1, 2, 3] 3 rfl (by decide)⟩

/-! ## Serial-string decoder: the conversion -/

theorem or_80 (b : Nat) (h : b < 64) : 0x80 ||| b = 0x80 + b := by
  have : ∀ b, b < 64 → 0x80 ||| b = 0x80 + b := by decide
  exact this b h

theorem or_C0 (b : Nat) (h : b < 32) : 0xC0 ||| b = 0xC0 + b := by
  have : ∀ b, b < 32 → 0xC0 ||| b = 0xC0 + b := by decide
  exact this b h

theorem or_E0 (b : Nat) (h : b < 16) : 0xE0 ||| b = 0xE0 + b := by
  have : ∀ b, b < 16 → 0xE0 ||| b = 0xE0 + b := by decide
  exact this b h

theorem and_3F (x : Nat) : x &&& 0x3F = x % 64 := Nat.and_pow_two_sub_one_eq_mod x 6
theorem and_1F (x : Nat) : x &&& 0x1F = x % 32 := Nat.and_pow_two_sub_one_eq_mod x 5
theorem and_0F (x : Nat) : x &&& 0x0F = x % 16 := Nat.and_pow_two_sub_one_eq_mod x 4
theorem and_FF (x : Nat) : x &&& 0xff = x % 256 := Nat.and_pow_two_sub_one_eq_mod x 8

theorem shr_6 (x : Nat) : x >>> 6 = x / 64 := by rw [Nat.shiftRight_eq_div_pow]
theorem shr_12 (x : Nat) : x >>> 12 = x / 4096 := by rw [Nat.shiftRight_eq_div_pow]

/-- The specification's bytes are the standard UTF-8 bytes. -/
theorem enc_eq_utf8_encode (u : Nat) (hu : u < 0x10000) : enc u = utf8_encode u := by
  unfold enc utf8_encode
  by_cases h1 : u < 0x80
  · simp [h1]
  · by_cases h2 : u < 0x800
    · simp [h1, h2]
    · simp only [h1, h2, if_false]
      rw [shr_12, shr_6, and_3F, and_3F, or_E0 _ (by omega), or_80 _ (Nat.mod_lt _ (by decide)),
        or_80 _ (Nat.mod_lt _ (by decide))]

theorem enc_lt (u : Nat) (hu : u < 0x10000) : ∀ b ∈ enc u, b < 256 := by
  rw [enc_eq_utf8_encode u hu]
  unfold utf8_encode
  intro b hb
  by_cases h1 : u < 0x80
  · simp [h1] at hb; omega
  · by_cases h2 : u < 0x800
    · simp [h1, h2] at hb; omega
    · simp [h1, h2] at hb; omega

theorem rd16_lt (mem : Nat → Nat) (p : Nat) : rd16 mem p < 0x10000 := by
  have h1 : rd mem p < 256 := Nat.mod_lt _ (by decide)
  have h2 : rd mem (p + 1) < 256 := Nat.mod_lt _ (by decide)
  unfold rd16; omega

/-- One round of the conversion loop stores the specification's bytes of the
code unit it reads. -/
theorem convert_loop_step (utf16 n i utf8 : Nat) (mem : Nat → Nat) :
    convert_loop utf16 (n + 1) i utf8 mem =
      convert_loop utf16 n (i + 1) (utf8 + (enc (rd16 mem (utf16 + 2 * i))).length)
        (wr_list mem utf8 (enc (rd16 mem (utf16 + 2 * i)))) := by
  have hu := rd16_lt mem (utf16 + 2 * i)
  rw [convert_loop]
  by_cases h1 : rd16 mem (utf16 + 2 * i) < 0x80
  · have hm : rd16 mem (utf16 + 2 * i) % 256 = rd16 mem (utf16 + 2 * i) :=
      Nat.mod_eq_of_lt (by omega)
    simp only [h1, if_true, enc, and_FF, hm, List.length_singleton, wr_list]
  · by_cases h2 : rd16 mem (utf16 + 2 * i) < 0x800
    · simp only [h1, h2, if_true, if_false, enc, List.length_cons, List.length_nil, wr_list]
      rw [shr_6, and_1F, and_3F, Nat.shiftRight_zero, or_80 _ (Nat.mod_lt _ (by decide)),
        Nat.mod_eq_of_lt (by omega : rd16 mem (utf16 + 2 * i) / 64 < 32), or_C0 _ (by omega)]
    · simp only [h1, h2, if_false, enc, List.length_cons, List.length_nil, wr_list]
      rw [shr_12, shr_6, and_0F, and_3F, Nat.shiftRight_zero, and_3F,
        Nat.mod_eq_of_lt (by omega : rd16 mem (utf16 + 2 * i) / 4096 < 16)]

theorem wr_list_frame : ∀ (l : List Nat) (p : Nat) (mem : Nat → Nat) (a : Nat),
    (a < p ∨ p + l.length ≤ a) → wr_list mem p l a = mem a := by
  intro l
  induction l with
  | nil => intro p mem a _; rfl
  | cons b bs ih =>
    intro p mem a h
    simp only [List.length_cons] at h
    rw [wr_list, ih (p + 1) (wr mem p b) a (by omega)]
    have hne : a ≠ p := by omega
    simp [wr, hne]

theorem bytes_at_congr (m1 m2 : Nat → Nat) (p n : Nat)
    (h : ∀ j, j < n → m1 (p + j) = m2 (p + j)) : bytes_at m1 p n = bytes_at m2 p n := by
  unfold bytes_at
  apply List.map_congr_left
  intro j hj
  simp only [rd, h j (List.mem_range.mp hj)]

theorem wr_list_bytes : ∀ (l : List Nat) (p : Nat) (mem : Nat → Nat),
    (∀ b ∈ l, b < 256) → bytes_at (wr_list mem p l) p l.length = l := by
  intro l
  induction l with
  | nil => intro p mem _; rfl
  | cons b bs ih =>
    intro p mem hb
    have hlen : (b :: bs).length = 1 + bs.length := by simp [Nat.add_comm]
    rw [hlen, bytes_at_add, wr_list, ih (p + 1) (wr mem p b)
      (fun x hx => hb x (List.mem_cons_of_mem _ hx))]
    have h0 : wr_list (wr mem p b) (p + 1) bs p = wr mem p b p :=
      wr_list_frame bs (p + 1) (wr mem p b) p (by omega)
    have hb0 : b < 256 := hb b (List.mem_cons_self _ _)
    simp [bytes_at, rd, h0, wr, Nat.mod_eq_of_lt hb0, List.range_succ]

theorem rd16_congr (m1 m2 : Nat → Nat) (x : Nat) (h0 : m1 x = m2 x)
    (h1 : m1 (x + 1) = m2 (x + 1)) : rd16 m1 x = rd16 m2 x := by
  simp only [rd16, rd, h0, h1]

/-- The conversion loop on a source of code units `units` (from unit index
`i`) and a destination that does not overlap it: the destination receives the
specification's bytes of the units in order and nothing else is changed. -/
theorem convert_loop_units (utf16 : Nat) :
    ∀ (units : List Nat) (i utf8 : Nat) (mem : Nat → Nat),
      (∀ k, k < units.length → rd16 mem (utf16 + 2 * (i + k)) = units.getD k 0) →
      (utf8 + (units.map enc).flatten.length ≤ utf16 + 2 * i ∨
        utf16 + 2 * (i + units.length) ≤ utf8) →
      bytes_at (convert_loop utf16 units.length i utf8 mem) utf8 (units.map enc).flatten.length
        = (units.map enc).flatten ∧
      ∀ a, (a < utf8 ∨ utf8 + (units.map enc).flatten.length ≤ a) →
        convert_loop utf16 units.length i utf8 mem a = mem a := by
  intro units
  induction units with
  | nil =>
    intro i utf8 mem _ _
    exact ⟨rfl, fun a _ => rfl⟩
  | cons u us ih =>
    intro i utf8 mem hsrc hsep
    have hu : rd16 mem (utf16 + 2 * i) = u := by
      have := hsrc 0 (by simp)
      simpa using this
    have hu16 : u < 0x10000 := by rw [← hu]; exact rd16_lt _ _
    have hL : ((u :: us).map enc).flatten.length
        = (enc u).length + (us.map enc).flatten.length := by
      simp only [List.map_cons, List.flatten_cons, List.length_append]
    have hlen : (u :: us).length = us.length + 1 := rfl
    rw [hL] at hsep ⊢
    rw [hlen] at hsep
    rw [hlen, convert_loop_step, hu]
    -- the stores of this round leave the remaining source alone
    have hsrc1 : ∀ k, k < us.length →
        rd16 (wr_list mem utf8 (enc u)) (utf16 + 2 * (i + 1 + k)) = us.getD k 0 := by
      intro k hk
      have h := hsrc (k + 1) (by simp; omega)
      rw [List.getD_cons_succ] at h
      rw [← h]
      have hpos : utf16 + 2 * (i + 1 + k) = utf16 + 2 * (i + (k + 1)) := by omega
      rw [hpos]
      apply rd16_congr
      · exact wr_list_frame _ _ _ _ (by omega)
      · exact wr_list_frame _ _ _ _ (by omega)
    obtain ⟨ihb, ihf⟩ := ih (i + 1) (utf8 + (enc u).length) (wr_list mem utf8 (enc u)) hsrc1
      (by omega)
    constructor
    · rw [bytes_at_add, ihb]
      simp only [List.map_cons, List.flatten_cons]
      congr 1
      have e1 : bytes_at (convert_loop utf16 us.length (i + 1) (utf8 + (enc u).length)
            (wr_list mem utf8 (enc u))) utf8 (enc u).length
          = bytes_at (wr_list mem utf8 (enc u)) utf8 (enc u).length :=
        bytes_at_congr _ _ _ _ (fun j hj => ihf (utf8 + j) (by omega))
      rw [e1, wr_list_bytes (enc u) utf8 mem (enc_lt u hu16)]
    · intro a ha
      rw [ihf a (by omega)]
      exact wr_list_frame _ _ _ _ (by omega)

theorem convert_units (mem : Nat → Nat) (utf16 utf8 : Nat) (units : List Nat)
    (hsrc : ∀ k, k < units.length → rd16 mem (utf16 + 2 * k) = units.getD k 0)
    (hsep : utf8 + (units.map enc).flatten.length ≤ utf16 ∨ utf16 + 2 * units.length ≤ utf8) :
    bytes_at (_convert_utf16le_to_utf8 mem utf16 units.length utf8) utf8
        (units.map enc).flatten.length = (units.map enc).flatten ∧
    ∀ a, (a < utf8 ∨ utf8 + (units.map enc).flatten.length ≤ a) →
      _convert_utf16le_to_utf8 mem utf16 units.length utf8 a = mem a := by
  unfold _convert_utf16le_to_utf8
  exact convert_loop_units utf16 units 0 utf8 mem
    (fun k hk => by rw [Nat.zero_add]; exact hsrc k hk)
    (by simpa using hsep)

/-- C20: with a destination that does not overlap the source,
`_convert_utf16le_to_utf8` maps each 16-bit code unit independently. Its
output for the units `xs ++ ys` is the concatenation in order of `enc u` for
each unit, it is the output for `xs` followed by the output for `ys`, and the
source units are left as they were. `enc u` is the standard UTF-8 encoding of
the code point `u` for every `u < 0x10000`, and the surrogate pair
`0xD83D 0xDE00` gives two three-byte sequences, six bytes in all. -/
theorem convert_utf16le_per_unit (mem : Nat → Nat) (utf16 utf8 : Nat) (xs ys : List Nat)
    (hsrc : ∀ k, k < (xs ++ ys).length → rd16 mem (utf16 + 2 * k) = (xs ++ ys).getD k 0)
    (hsep : utf8 + ((xs ++ ys).map enc).flatten.length ≤ utf16 ∨
      utf16 + 2 * (xs ++ ys).length ≤ utf8) :
    bytes_at (_convert_utf16le_to_utf8 mem utf16 (xs ++ ys).length utf8) utf8
        ((xs ++ ys).map enc).flatten.length = ((xs ++ ys).map enc).flatten ∧
    bytes_at (_convert_utf16le_to_utf8 mem utf16 (xs ++ ys).length utf8) utf8
        ((xs ++ ys).map enc).flatten.length =
      bytes_at (_convert_utf16le_to_utf8 mem utf16 xs.length utf8) utf8
          (xs.map enc).flatten.length ++
        bytes_at (_convert_utf16le_to_utf8 mem (utf16 + 2 * xs.length) ys.length utf8) utf8
          (ys.map enc).flatten.length ∧
    (∀ k, k < (xs ++ ys).length →
      rd16 (_convert_utf16le_to_utf8 mem utf16 (xs ++ ys).length utf8) (utf16 + 2 * k)
        = (xs ++ ys).getD k 0) ∧
    (∀ u, u < 0x10000 → enc u = utf8_encode u) ∧
    enc 0xD83D ++ enc 0xDE00 = [0xED, 0xA0, 0xBD, 0xED, 0xB8, 0x80] := by
  have hL : ((xs ++ ys).map enc).flatten.length
      = (xs.map enc).flatten.length + (ys.map enc).flatten.length := by
    simp only [List.map_append, List.flatten_append, List.length_append]
  have hlen : (xs ++ ys).length = xs.length + ys.length := List.length_append _ _
  obtain ⟨hall, hframe⟩ := convert_units mem utf16 utf8 (xs ++ ys) hsrc hsep
  have hxs := (convert_units mem utf16 utf8 xs
    (fun k hk => by
      rw [hsrc k (by rw [hlen]; omega), List.getD_append _ _ _ _ hk])
    (by rw [hL, hlen] at hsep; omega)).1
  have hys := (convert_units mem (utf16 + 2 * xs.length) utf8 ys
    (fun k hk => by
      have h := hsrc (xs.length + k) (by rw [hlen]; omega)
      rw [List.getD_append_right _ _ _ _ (by omega)] at h
      have hp : utf16 + 2 * xs.length + 2 * k = utf16 + 2 * (xs.length + k) := by omega
      have hk' : xs.length + k - xs.length = k := by omega
      rw [hp, h, hk'])
    (by rw [hL, hlen] at hsep; omega)).1
  refine ⟨hall, ?_, ?_, enc_eq_utf8_encode, by decide⟩
  · rw [hall, hxs, hys, List.map_append, List.flatten_append]
  · intro k hk
    rw [← hsrc k hk]
    apply rd16_congr
    · exact hframe _ (by rw [hlen] at hsep hk; omega)
    · exact hframe _ (by rw [hlen] at hsep hk; omega)

/-- C20 (witness): the units `0x41`, `0xE9`, `0x20AC` followed by the surrogate
pair `0xD83D`, `0xDE00`, converted to offset 16, behind the source. -/
theorem convert_utf16le_per_unit_witness :
    (∀ k, k < ([0x41, 0xE9, 0x20AC] ++ [0xD83D, 0xDE00]).length →
      rd16 utf16_sample (0 + 2 * k) = ([0x41, 0xE9, 0x20AC] ++ [0xD83D, 0xDE00]).getD k 0) ∧
    (16 + (([0x41, 0xE9, 0x20AC] ++ [0xD83D, 0xDE00]).map enc).flatten.length ≤ 0 ∨
      0 + 2 * ([0x41, 0xE9, 0x20AC] ++ [0xD83D, 0xDE00]).length ≤ 16) ∧
    (bytes_at (_convert_utf16le_to_utf8 utf16_sample 0
          ([0x41, 0xE9, 0x20AC] ++ [0xD83D, 0xDE00]).length 16) 16
        (([0x41, 0xE9, 0x20AC] ++ [0xD83D, 0xDE00]).map enc).flatten.length
        = (([0x41, 0xE9, 0x20AC] ++ [0xD83D, 0xDE00]).map enc).flatten ∧
    bytes_at (_convert_utf16le_to_utf8 utf16_sample 0
          ([0x41, 0xE9, 0x20AC] ++ [0xD83D, 0xDE00]).length 16) 16
        (([0x41, 0xE9, 0x20AC] ++ [0xD83D, 0xDE00]).map enc).flatten.length =
      bytes_at (_convert_utf16le_to_utf8 utf16_sample 0 [0x41, 0xE9, 0x20AC].length 16) 16
          ([0x41, 0xE9, 0x20AC].map enc).flatten.length ++
        bytes_at (_convert_utf16le_to_utf8 utf16_sample (0 + 2 * [0x41, 0xE9, 0x20AC].length)
          [0xD83D, 0xDE00].length 16) 16 ([0xD83D, 0xDE00].map enc).flatten.length ∧
    (∀ k, k < ([0x41, 0xE9, 0x20AC] ++ [0xD83D, 0xDE00]).length →
      rd16 (_convert_utf16le_to_utf8 utf16_sample 0
          ([0x41, 0xE9, 0x20AC] ++ [0xD83D, 0xDE00]).length 16) (0 + 2 * k)
        = ([0x41, 0xE9, 0x20AC] ++ [0xD83D, 0xDE00]).getD k 0) ∧
    (∀ u, u < 0x10000 → enc u = utf8_encode u) ∧
    enc 0xD83D ++ enc 0xDE00 = [0xED, 0xA0, 0xBD, 0xED, 0xB8, 0x80]) :=
  ⟨by decide, by decide,
    convert_utf16le_per_unit utf16_sample 0 16 [0x41, 0xE9, 0x20AC] [0xD83D, 0xDE00]
      (by decide) (by decide)⟩

/-! ## Serial-string decoder: the count -/

theorem enc_length (u : Nat) :
    (enc u).length = if u < 0x80 then 1 else if u < 0x800 then 2 else 3 := by
  unfold enc
  by_cases h1 : u < 0x80
  · simp [h1]
  · by_cases h2 : u < 0x800
    · simp [h1, h2]
    · simp [h1, h2]

/-- One round of the counting loop adds the number of bytes the specification
gives for the code unit it reads. -/
theorem count_loop_step (mem : Nat → Nat) (buf n i acc : Nat) :
    count_loop mem buf (n + 1) i acc =
      count_loop mem buf n (i + 1) ((acc + (enc (rd16 mem (buf + 2 * i))).length) % SIZE_T_MOD) := by
  rw [count_loop, enc_length]
  by_cases h1 : rd16 mem (buf + 2 * i) < 0x80
  · simp only [h1, if_true]
  · by_cases h2 : rd16 mem (buf + 2 * i) < 0x800
    · simp only [h1, h2, if_true, if_false]
    · simp only [h1, h2, if_false]

/-- The counting loop on the code units `units`: the accumulator grows by the
total length of their encodings, modulo `2 ^ 32`. -/
theorem count_loop_units (mem : Nat → Nat) (buf : Nat) :
    ∀ (units : List Nat) (i acc : Nat), acc < SIZE_T_MOD →
      (∀ k, k < units.length → rd16 mem (buf + 2 * (i + k)) = units.getD k 0) →
      count_loop mem buf units.length i acc
        = (acc + (units.map enc).flatten.length) % SIZE_T_MOD := by
  intro units
  induction units with
  | nil =>
    intro i acc h _
    simp [count_loop, Nat.mod_eq_of_lt h]
  | cons u us ih =>
    intro i acc _ hsrc
    have hu : rd16 mem (buf + 2 * i) = u := by
      have := hsrc 0 (by simp)
      simpa using this
    have hlen : (u :: us).length = us.length + 1 := rfl
    have hL : ((u :: us).map enc).flatten.length
        = (enc u).length + (us.map enc).flatten.length := by
      simp only [List.map_cons, List.flatten_cons, List.length_append]
    have hsrc1 : ∀ k, k < us.length → rd16 mem (buf + 2 * (i + 1 + k)) = us.getD k 0 := by
      intro k hk
      have h := hsrc (k + 1) (by simp; omega)
      rw [List.getD_cons_succ] at h
      rw [← h]
      have hpos : buf + 2 * (i + 1 + k) = buf + 2 * (i + (k + 1)) := by omega
      rw [hpos]
    rw [hlen, count_loop_step, hu, ih (i + 1) _ (Nat.mod_lt _ (by decide)) hsrc1, hL,
      Nat.mod_add_mod, Nat.add_assoc]

theorem count_units (mem : Nat → Nat) (buf : Nat) (units : List Nat)
    (hsrc : ∀ k, k < units.length → rd16 mem (buf + 2 * k) = units.getD k 0) :
    _count_utf8_bytes mem buf units.length = (units.map enc).flatten.length % SIZE_T_MOD := by
  unfold _count_utf8_bytes
  rw [count_loop_units mem buf units 0 0 (by decide)
    (fun k hk => by rw [Nat.zero_add]; exact hsrc k hk), Nat.zero_add]

/-- One round of the conversion moves the cursor by the number of bytes it
stores. -/
theorem convert_cursor_step (utf16 n i utf8 : Nat) (mem : Nat → Nat) :
    convert_cursor utf16 (n + 1) i utf8 mem =
      convert_cursor utf16 n (i + 1) (utf8 + (enc (rd16 mem (utf16 + 2 * i))).length)
        (wr_list mem utf8 (enc (rd16 mem (utf16 + 2 * i)))) := by
  have hu := rd16_lt mem (utf16 + 2 * i)
  rw [convert_cursor]
  by_cases h1 : rd16 mem (utf16 + 2 * i) < 0x80
  · have hm : rd16 mem (utf16 + 2 * i) % 256 = rd16 mem (utf16 + 2 * i) :=
      Nat.mod_eq_of_lt (by omega)
    simp only [h1, if_true, enc, and_FF, hm, List.length_singleton, wr_list]
  · by_cases h2 : rd16 mem (utf16 + 2 * i) < 0x800
    · simp only [h1, h2, if_true, if_false, enc, List.length_cons, List.length_nil, wr_list]
      rw [shr_6, and_1F, and_3F, Nat.shiftRight_zero, or_80 _ (Nat.mod_lt _ (by decide)),
        Nat.mod_eq_of_lt (by omega : rd16 mem (utf16 + 2 * i) / 64 < 32), or_C0 _ (by omega)]
    · simp only [h1, h2, if_false, enc, List.length_cons, List.length_nil, wr_list]
      rw [shr_12, shr_6, and_0F, and_3F, Nat.shiftRight_zero, and_3F,
        Nat.mod_eq_of_lt (by omega : rd16 mem (utf16 + 2 * i) / 4096 < 16)]

/-- The cursor after the conversion of the code units `units` to a
destination that does not overlap them. -/
theorem convert_cursor_units (utf16 : Nat) :
    ∀ (units : List Nat) (i utf8 : Nat) (mem : Nat → Nat),
      (∀ k, k < units.length → rd16 mem (utf16 + 2 * (i + k)) = units.getD k 0) →
      (utf8 + (units.map enc).flatten.length ≤ utf16 + 2 * i ∨
        utf16 + 2 * (i + units.length) ≤ utf8) →
      convert_cursor utf16 units.length i utf8 mem = utf8 + (units.map enc).flatten.length := by
  intro units
  induction units with
  | nil =>
    intro i utf8 mem _ _
    rfl
  | cons u us ih =>
    intro i utf8 mem hsrc hsep
    have hu : rd16 mem (utf16 + 2 * i) = u := by
      have := hsrc 0 (by simp)
      simpa using this
    have hL : ((u :: us).map enc).flatten.length
        = (enc u).length + (us.map enc).flatten.length := by
      simp only [List.map_cons, List.flatten_cons, List.length_append]
    have hlen : (u :: us).length = us.length + 1 := rfl
    rw [hL] at hsep ⊢
    rw [hlen] at hsep
    rw [hlen, convert_cursor_step, hu]
    have hsrc1 : ∀ k, k < us.length →
        rd16 (wr_list mem utf8 (enc u)) (utf16 + 2 * (i + 1 + k)) = us.getD k 0 := by
      intro k hk
      have h := hsrc (k + 1) (by simp; omega)
      rw [List.getD_cons_succ] at h
      rw [← h]
      have hpos : utf16 + 2 * (i + 1 + k) = utf16 + 2 * (i + (k + 1)) := by omega
      rw [hpos]
      apply rd16_congr
      · exact wr_list_frame _ _ _ _ (by omega)
      · exact wr_list_frame _ _ _ _ (by omega)
    rw [ih (i + 1) (utf8 + (enc u).length) (wr_list mem utf8 (enc u)) hsrc1 (by omega),
      Nat.add_assoc]

/-- Away from the call in the serial decoder, the two functions agree:
`_count_utf8_bytes` returns exactly the number of bytes that
`_convert_utf16le_to_utf8` stores for the same code units. For code units
`units` held at `utf16`, a destination `utf8` that does not overlap them, and
both arrays inside the 32-bit address space: the count is the total length of
the per-unit encodings, the output cursor of the conversion ends at `utf8`
plus the count, the bytes from `utf8` up to the count are the encodings in
order, no byte outside that range is changed, and each unit contributes 1
byte below `0x80`, 2 below `0x800` and 3 otherwise. -/
theorem count_utf8_bytes_is_output_length (mem : Nat → Nat) (utf16 utf8 : Nat)
    (units : List Nat)
    (hsrc : ∀ k, k < units.length → rd16 mem (utf16 + 2 * k) = units.getD k 0)
    (hsep : utf8 + (units.map enc).flatten.length ≤ utf16 ∨ utf16 + 2 * units.length ≤ utf8)
    (hsrc_fit : utf16 + 2 * units.length ≤ SIZE_T_MOD)
    (hdst_fit : utf8 + (units.map enc).flatten.length ≤ SIZE_T_MOD) :
    _count_utf8_bytes mem utf16 units.length = (units.map enc).flatten.length ∧
    convert_cursor utf16 units.length 0 utf8 mem
      = utf8 + _count_utf8_bytes mem utf16 units.length ∧
    bytes_at (_convert_utf16le_to_utf8 mem utf16 units.length utf8) utf8
      (_count_utf8_bytes mem utf16 units.length) = (units.map enc).flatten ∧
    (∀ a, (a < utf8 ∨ utf8 + _count_utf8_bytes mem utf16 units.length ≤ a) →
      _convert_utf16le_to_utf8 mem utf16 units.length utf8 a = mem a) ∧
    (∀ u, (enc u).length = if u < 0x80 then 1 else if u < 0x800 then 2 else 3) := by
  have hpos : units.length = 0 → (units.map enc).flatten.length = 0 := by
    intro h0
    rw [List.length_eq_zero.mp h0]
    rfl
  have hlt : (units.map enc).flatten.length < SIZE_T_MOD := by
    by_cases h0 : units.length = 0
    · rw [hpos h0]; decide
    · omega
  have hcount : _count_utf8_bytes mem utf16 units.length = (units.map enc).flatten.length := by
    rw [count_units mem utf16 units hsrc, Nat.mod_eq_of_lt hlt]
  obtain ⟨hb, hf⟩ := convert_units mem utf16 utf8 units hsrc hsep
  have hc := convert_cursor_units utf16 units 0 utf8 mem
    (fun k hk => by rw [Nat.zero_add]; exact hsrc k hk) (by simpa using hsep)
  rw [hcount]
  exact ⟨rfl, hc, hb, hf, enc_length⟩

/-- The units `0x41`, `0xE9`, `0x20AC`, `0xD83D`, `0xDE00` at offset 0,
converted to offset 16: twelve bytes. -/
theorem count_utf8_bytes_is_output_length_witness :
    (∀ k, k < [0x41, 0xE9, 0x20AC, 0xD83D, 0xDE00].length →
      rd16 utf16_sample (0 + 2 * k) = [0x41, 0xE9, 0x20AC, 0xD83D, 0xDE00].getD k 0) ∧
    (16 + ([0x41, 0xE9, 0x20AC, 0xD83D, 0xDE00].map enc).flatten.length ≤ 0 ∨
      0 + 2 * [0x41, 0xE9, 0x20AC, 0xD83D, 0xDE00].length ≤ 16) ∧
    0 + 2 * [0x41, 0xE9, 0x20AC, 0xD83D, 0xDE00].length ≤ SIZE_T_MOD ∧
    16 + ([0x41, 0xE9, 0x20AC, 0xD83D, 0xDE00].map enc).flatten.length ≤ SIZE_T_MOD ∧
    (_count_utf8_bytes utf16_sample 0 [0x41, 0xE9, 0x20AC, 0xD83D, 0xDE00].length
      = ([0x41, 0xE9, 0x20AC, 0xD83D, 0xDE00].map enc).flatten.length ∧
    convert_cursor 0 [0x41, 0xE9, 0x20AC, 0xD83D, 0xDE00].length 0 16 utf16_sample
      = 16 + _count_utf8_bytes utf16_sample 0 [0x41, 0xE9, 0x20AC, 0xD83D, 0xDE00].length ∧
    bytes_at (_convert_utf16le_to_utf8 utf16_sample 0
        [0x41, 0xE9, 0x20AC, 0xD83D, 0xDE00].length 16) 16
      (_count_utf8_bytes utf16_sample 0 [0x41, 0xE9, 0x20AC, 0xD83D, 0xDE00].length)
      = ([0x41, 0xE9, 0x20AC, 0xD83D, 0xDE00].map enc).flatten ∧
    (∀ a, (a < 16 ∨ 16 + _count_utf8_bytes utf16_sample 0
          [0x41, 0xE9, 0x20AC, 0xD83D, 0xDE00].length ≤ a) →
      _convert_utf16le_to_utf8 utf16_sample 0 [0x41, 0xE9, 0x20AC, 0xD83D, 0xDE00].length 16 a
        = utf16_sample a) ∧
    (∀ u, (enc u).length = if u < 0x80 then 1 else if u < 0x800 then 2 else 3)) :=
  ⟨by decide, by decide, by decide, by decide,
    count_utf8_bytes_is_output_length utf16_sample 0 16 [0x41, 0xE9, 0x20AC, 0xD83D, 0xDE00]
      (by decide) (by decide) (by decide) (by decide)⟩

/-! ## Descriptor parser: termination -/

/-- On a descriptor with `bLength` 0 that is neither an interface association
nor an alternate-setting-0 interface, a round of the inner loop of
`count_interface_total_len` changes neither `p_desc` nor `len`: the loop does
not end, whatever the fuel. -/
theorem count_inner_stuck (mem : Nat → Nat) (max_len p len : Nat)
    (hlen0 : tu_desc_len mem p = 0)
    (hiad : tu_desc_type mem p ≠ TUSB_DESC_INTERFACE_ASSOCIATION)
    (hitf : ¬ (tu_desc_type mem p = TUSB_DESC_INTERFACE ∧ bAlternateSetting mem p = 0))
    (hlt : len < max_len) (h16 : len < 65536) :
    ∀ fuel, count_inner mem max_len fuel p len = none := by
  intro fuel
  induction fuel with
  | zero => rfl
  | succ fuel ih =>
    have hnext : tu_desc_next mem p = p := by
      unfold tu_desc_next
      unfold tu_desc_len at hlen0
      rw [hlen0, Nat.add_zero]
    rw [count_inner]
    simp only [hlt, if_true, hiad, hitf, if_false, hnext, hlen0, Nat.add_zero,
      Nat.mod_eq_of_lt h16]
    exact ih

/-- On `cfg_zero_blength` the span of the interface at offset 9 is never
computed: the inner loop stays at offset 18 with `len = 9`. -/
theorem count_zero_blength_none (fuel : Nat) :
    count_interface_total_len (mem_of_list cfg_zero_blength) fuel 9 1 11 = none := by
  have hstuck : ∀ fuel, count_inner (mem_of_list cfg_zero_blength) 11 fuel 18 9 = none :=
    count_inner_stuck (mem_of_list cfg_zero_blength) 11 18 9 (by decide) (by decide) (by decide)
      (by decide) (by decide)
  have hn : tu_desc_next (mem_of_list cfg_zero_blength) 9 = 18 := by decide
  have hl : (0 + tu_desc_len (mem_of_list cfg_zero_blength) 9) % 65536 = 9 := by decide
  unfold count_interface_total_len
  rw [count_outer, hn, hl, hstuck fuel]

/-- On `cfg_zero_blength` the parser does not return, whatever the fuel, the
bus address and the answers of `tuh_edpt_open`. -/
theorem parse_zero_blength_none (edpt_open : Nat → Nat → Bool) (fuel dev_addr : Nat) :
    parse_config_descriptor (mem_of_list cfg_zero_blength) edpt_open fuel dev_addr = none := by
  cases fuel with
  | zero => rfl
  | succ fuel =>
    have hw : wTotalLength (mem_of_list cfg_zero_blength) = 20 := by decide
    have hn : tu_desc_next (mem_of_list cfg_zero_blength) 0 = 9 := by decide
    have ht : tu_desc_type (mem_of_list cfg_zero_blength) 9 = 4 := by decide
    have hmax : Int.toNat ((((20 : Nat) : Int) - ((9 : Nat) : Int)) % 65536) = 11 := by decide
    unfold parse_config_descriptor
    rw [hw, hn, parse_loop]
    simp only [ht, TUSB_DESC_INTERFACE_ASSOCIATION, TUSB_DESC_INTERFACE]
    simp only [show (9 : Nat) < 20 from by decide, if_true,
      show ¬ ((0x0B : Nat) = 4) from by decide, if_false, ne_eq, not_true_eq_false]
    rw [hmax, count_zero_blength_none (fuel + 1)]
    simp only [ht, not_true_eq_false, if_false]

/-- C22 (failing input): on the 20-byte configuration `cfg_zero_blength`,
whose interface is followed by a sub-descriptor with `bLength` 0,
`parse_config_descriptor` does not return for any amount of fuel: the inner
loop of `count_interface_total_len` stays at offset 18 with `len = 9`. The
other inputs the claim names do end: an interface association that declares 0
interfaces and a declared total length of 0 both return in the first round. -/
theorem parse_config_descriptor_zero_blength_hangs :
    wTotalLength (mem_of_list cfg_zero_blength) = cfg_zero_blength.length ∧
    tu_desc_len (mem_of_list cfg_zero_blength) 18 = 0 ∧
    (∀ fuel, count_interface_total_len (mem_of_list cfg_zero_blength) fuel 9 1 11 = none) ∧
    (∀ fuel, parse_config_descriptor (mem_of_list cfg_zero_blength) (fun _ _ => true) fuel 1
      = none) ∧
    parse_config_descriptor (mem_of_list cfg_empty_assoc) (fun _ _ => true) 1 1
      = some ⟨ret_u8.no_value, []⟩ ∧
    parse_config_descriptor (mem_of_list cfg_zero_total) (fun _ _ => true) 1 1
      = some ⟨ret_u8.value 0, []⟩ :=
  ⟨by decide, by decide, count_zero_blength_none,
    fun fuel => parse_zero_blength_none (fun _ _ => true) fuel 1, by decide, by decide⟩

/-! ## Device session: the parser call -/

/-- C15 (failing input): the fresh record has its Connection and
`dlo_malloc(BUF_SIZE)` would succeed, but the configuration descriptor that
the fetch delivers is `cfg_zero_blength`: `dlo_usb_open` does not return, for
any amount of fuel, because its first step, the call of
`parse_config_descriptor`, does not return. -/
theorem dlo_usb_open_never_returns :
    dev_fresh.cnct = some ⟨1, ret_u8.value 0⟩ ∧
    open_env_zero_blength.cfg = (XFER_RESULT_SUCCESS, mem_of_list cfg_zero_blength) ∧
    open_env_zero_blength.buffer_alloc ≠ 0 ∧
    (∀ fuel, dlo_usb_open open_env_zero_blength 65536 fuel dev_fresh = run.no_fuel) := by
  refine ⟨rfl, rfl, by decide, ?_⟩
  intro fuel
  have hp : parse_config_descriptor open_env_zero_blength.cfg.2 open_env_zero_blength.edpt_open
      fuel 1 = none := parse_zero_blength_none _ fuel 1
  have hs : XFER_RESULT_SUCCESS = open_env_zero_blength.cfg.1 := rfl
  have hc : dev_fresh.cnct = some ⟨1, ret_u8.value 0⟩ := rfl
  unfold dlo_usb_open
  simp only [hc, hs, if_true, hp]

/-! ## Serial-string decoder: bounds -/

/-- Every round of the conversion stores at least one byte. -/
theorem convert_cursor_ge (utf16 : Nat) :
    ∀ (n i utf8 : Nat) (mem : Nat → Nat), utf8 + n ≤ convert_cursor utf16 n i utf8 mem := by
  intro n
  induction n with
  | zero => intro i utf8 mem; exact Nat.le_refl _
  | succ n ih =>
    intro i utf8 mem
    rw [convert_cursor_step]
    have h := ih (i + 1) (utf8 + (enc (rd16 mem (utf16 + 2 * i))).length)
      (wr_list mem utf8 (enc (rd16 mem (utf16 + 2 * i))))
    have hl : 1 ≤ (enc (rd16 mem (utf16 + 2 * i))).length := by
      rw [enc_length]
      split
      · decide
      · split <;> decide
    omega

set_option maxRecDepth 1000000 in
/-- C23 (failing inputs): first, for a fetched descriptor whose length byte is
1, the decoder counts and converts `0x7FFFFFFF` code units, not zero: `1 - 2`
wraps in `size_t` arithmetic, and the conversion stores at least `0x7FFFFFFF`
bytes from `buf[0]` on. Second, for the 174-byte descriptor of 86 characters
"€" in the 255-byte array, 86 code units are decoded, the count is 258, and
the bytes at offsets 255 to 258, behind the array, are overwritten with the
end of the converted text and the terminator. -/
theorem serial_string_writes_past_buffer :
    rd (mem_of_list serial_len_1) 0 = 1 ∧
    tuh_descriptor_get_serial_string_sync_utf8 (XFER_RESULT_SUCCESS, mem_of_list serial_len_1)
      = (XFER_RESULT_SUCCESS,
          wr (_convert_utf16le_to_utf8 (mem_of_list serial_len_1) 4 0x7FFFFFFF 0)
            (_count_utf8_bytes (mem_of_list serial_len_1) 2 0x7FFFFFFF) 0) ∧
    0 + 0x7FFFFFFF ≤ convert_cursor 4 0x7FFFFFFF 0 0 (mem_of_list serial_len_1) ∧
    rd string_euro_86 0 = 174 ∧
    bytes_at string_euro_86 0 174 = serial_euro_86 ∧
    (((rd string_euro_86 0 &&& 0xff) + SIZE_T_MOD - 2) % SIZE_T_MOD) / 2 = 86 ∧
    _count_utf8_bytes string_euro_86 2 86 = 258 ∧
    bytes_at string_euro_86 255 4 = [0x55, 0x55, 0x55, 0x55] ∧
    bytes_at (tuh_descriptor_get_serial_string_sync_utf8
        (XFER_RESULT_SUCCESS, string_euro_86)).2 255 4 = [0xEB, 0xBF, 0xAA, 0] := by
  refine ⟨by decide, ?_, convert_cursor_ge 4 0x7FFFFFFF 0 0 (mem_of_list serial_len_1),
    by decide, by decide, by decide, by decide, by decide, by decide⟩
  have h0 : rd (mem_of_list serial_len_1) 0 = 1 := by decide
  unfold tuh_descriptor_get_serial_string_sync_utf8
  simp only [h0, SIZE_T_MOD]
  rfl

/-! ## Serial-string decoder: transcoding in place -/

/-- C24 (failing input): for the fetched descriptor of eight characters
`U+3042` the decoder converts 8 code units from byte offset 4: seven times
`0x3042` and the zero unit behind the descriptor. Converted to a destination
away from the source, these give `E3 81 82` seven times and a zero byte. In
place, the output agrees for the first five units only: the stores of the
earlier rounds have reached the sixth unit before it is read, and the output
continues `E3 82 82 E8 8A 82 E8`. -/
theorem serial_string_in_place_overwrites_source :
    (((rd (mem_of_list serial_hiragana) 0 &&& 0xff) + SIZE_T_MOD - 2) % SIZE_T_MOD) / 2 = 8 ∧
    (List.range 8).map (fun k => rd16 (mem_of_list serial_hiragana) (4 + 2 * k))
      = [0x3042, 0x3042, 0x3042, 0x3042, 0x3042, 0x3042, 0x3042, 0] ∧
    bytes_at (_convert_utf16le_to_utf8 (mem_of_list serial_hiragana) 4 8 1000) 1000 22
      = ([0x3042, 0x3042, 0x3042, 0x3042, 0x3042, 0x3042, 0x3042, 0].map enc).flatten ∧
    bytes_at (_convert_utf16le_to_utf8 (mem_of_list serial_hiragana) 4 8 1000) 1000 22
      = [0xE3, 0x81, 0x82, 0xE3, 0x81, 0x82, 0xE3, 0x81, 0x82, 0xE3, 0x81, 0x82, 0xE3, 0x81, 0x82,
         0xE3, 0x81, 0x82, 0xE3, 0x81, 0x82, 0] ∧
    bytes_at (tuh_descriptor_get_serial_string_sync_utf8
        (XFER_RESULT_SUCCESS, mem_of_list serial_hiragana)).2 0 22
      = [0xE3, 0x81, 0x82, 0xE3, 0x81, 0x82, 0xE3, 0x81, 0x82, 0xE3, 0x81, 0x82, 0xE3, 0x81, 0x82,
         0xE3, 0x82, 0x82, 0xE8, 0x8A, 0x82, 0xE8] ∧
    bytes_at (tuh_descriptor_get_serial_string_sync_utf8
        (XFER_RESULT_SUCCESS, mem_of_list serial_hiragana)).2 0 22
      ≠ bytes_at (_convert_utf16le_to_utf8 (mem_of_list serial_hiragana) 4 8 1000) 1000 22 ∧
    rd16 (convert_loop 4 5 0 0 (mem_of_list serial_hiragana)) (4 + 2 * 5) = 0x3082 := by
  decide

/-! ## Serial-string decoder: the two passes at the call -/

/-- C21 (failing inputs): in `tuh_descriptor_get_serial_string_sync_utf8`
the length of pass one is not the end of the output of pass two. For the
fetched descriptor of "éA" (2 code units) the count, taken from byte offset 2,
is 3, while the conversion, run from byte offset 4, stores 2 bytes; the
terminator goes to index 3 and the buffer starts `41 00 E9 00`. Also with one
and the same source pointer the two differ when the conversion runs in place:
for the 8 code units at byte offset 4 of the descriptor of eight `U+3042` the
count is 22, while the conversion to offset 0 stores 24 bytes. -/
theorem serial_string_count_is_not_output_end :
    (((rd (mem_of_list serial_eA) 0 &&& 0xff) + SIZE_T_MOD - 2) % SIZE_T_MOD) / 2 = 2 ∧
    _count_utf8_bytes (mem_of_list serial_eA) 2 2 = 3 ∧
    convert_cursor 4 2 0 0 (mem_of_list serial_eA) = 0 + 2 ∧
    bytes_at (tuh_descriptor_get_serial_string_sync_utf8
        (XFER_RESULT_SUCCESS, mem_of_list serial_eA)).2 0 4 = [0x41, 0, 0xE9, 0] ∧
    _count_utf8_bytes (mem_of_list serial_hiragana) 4 8 = 22 ∧
    convert_cursor 4 8 0 0 (mem_of_list serial_hiragana) = 0 + 24 := by
  decide

end Picogus
